import Mathlib

/-!
parquet-converter: struct flattening, flag parsing and the COPY statement.

A shallow embedding of

* `pkg/fileconv/utils.go`   (`FlattenStructColumn`, `GetTableDesc`,
  `createStructColTable`, `dropTable`, `getFlattenedTableSelect`),
* `cmd/json2parquet.go`     (`getJsonReadFlags`),
* `pkg/pqconv/json2parquet.go` (`Json2Parquet`),

followed by the properties proved about them.

Go strings are Lean strings.  The embedded database and the wall clock are an
explicit environment `Env σ` acting on a state `σ`; every call of the Go code
on `c.db` or `time.Now` is a call on the environment, in the same order.
The recursion of `FlattenStructColumn` is driven by what the engine answers,
so it carries a fuel argument that bounds the nesting of recursive calls.
-/

namespace Fileconv

/-! ## Data model (package `model`, used by `fileconv`) -/

/-- A column name and its engine-native type tag (`model.ColumnDesc`). -/
structure ColumnDesc where
  ColName : String
  ColType : String
deriving DecidableEq, Repr

/-- The shape of one query result (`model.TableDesc`). -/
structure TableDesc where
  ColumnDescs : List ColumnDesc
deriving DecidableEq, Repr

/-- The Go `error` values that occur in `fileconv`. -/
inductive Err where
  /-- The value `errors.New("column type not STRUCT")`. -/
  | notStruct
  /-- An error returned by `db.ExecContext`, `db.QueryContext` or `rows.Scan`. -/
  | engine (msg : String)
  /-- An error returned by `TableDesc.GetUnnestedColumns`. -/
  | model (msg : String)
  /-- The value `fmt.Errorf(context + "%w", inner)`. -/
  | wrap (context : String) (inner : Err)
  /-- The value `fmt.Errorf("unnested table columns and flattened columns not
  matching. unnested table cols: %v, flattened cols: %v", unnested, flattened)`. -/
  | mismatch (unnested flattened : List ColumnDesc)
deriving DecidableEq, Repr

deriving instance DecidableEq for Except

/-- The two functions of package `model` that `fileconv` calls.  The package lies
outside the files embedded here, so they are parameters of the embedding. -/
structure Model where
  /-- The method `ColumnType.IsStruct`. -/
  IsStruct : String → Bool
  /-- The method `TableDesc.GetUnnestedColumns`: the select list and the error. -/
  GetUnnestedColumns : TableDesc → String × Option Err

/-- What a successful `db.QueryContext` hands back (`*sql.Rows`), as the loop
`for rows.Next() { rows.Scan(&colName, &colType) }` meets it: the outcome of
`rows.Scan` for every row that `rows.Next` delivers, in order, and the error, if
any, that made `rows.Next` stop, which only `rows.Err()` would report. -/
structure Rows where
  scans : List (Except String (String × String))
  iterErr : Option String
deriving DecidableEq

/-- A result set that delivers the given rows, each scanned without error, and
ends without error. -/
def Rows.ofList (rows : List (String × String)) : Rows :=
  ⟨rows.map Except.ok, none⟩

/-- The environment of a converter: the embedded engine behind `c.db` and the
clock.  Each operation takes the state before and returns the state after.
`QueryContext` yields the error of the call or its result set; the state after
is the one in which the result set has been read and closed. -/
structure Env (σ : Type) where
  ExecContext : String → σ → Option String × σ
  QueryContext : String → σ → Except String Rows × σ
  UnixMicro : σ → Int × σ

/-! ## `pkg/fileconv/utils.go` -/

/-- The statement text of `GetTableDesc`. -/
def describeSQL (table : String) : String :=
  "SELECT COLUMN_NAME, COLUMN_TYPE FROM (DESCRIBE " ++ table ++ ")"

/-- The statement text of `createStructColTable`. -/
def createSQL (tableName colType : String) : String :=
  "CREATE TABLE " ++ tableName ++ " (C1 " ++ colType ++ ")"

/-- The statement text of `dropTable`. -/
def dropSQL (tableName : String) : String :=
  "DROP TABLE " ++ tableName

/-- The name `fmt.Sprintf("%s_tmp_%d", colName, micro)` of a temporary relation. -/
def tmpName (colName : String) (micro : Int) : String :=
  colName ++ "_tmp_" ++ toString micro

/-- The loop `for rows.Next() { ... }` of `GetTableDesc` over the rows that
`rows.Next` delivers: a failing `rows.Scan` returns its error, a scanned row is
appended to `columns`.  When no row is left the loop ends, and the columns read
so far are the result: the code does not call `rows.Err()`. -/
def scanRows : List (Except String (String × String)) → List ColumnDesc →
    Except Err (List ColumnDesc)
  | [], columns => .ok columns
  | .error m :: _, _ => .error (.engine m)
  | .ok row :: rest, columns => scanRows rest (columns ++ [⟨row.1, row.2⟩])

/-- Translation of `GetTableDesc`: one query, then the scan loop.  The field
`iterErr` of the result set is not read. -/
def GetTableDesc {σ : Type} (e : Env σ) (table : String) (s : σ) :
    Except Err TableDesc × σ :=
  let r := e.QueryContext (describeSQL table) s
  match r.1 with
  | .error m => (.error (.engine m), r.2)
  | .ok rows =>
    match scanRows rows.scans [] with
    | .error err => (.error err, r.2)
    | .ok columns => (.ok ⟨columns⟩, r.2)

/-- Translation of `createStructColTable`: read the clock, create the relation. -/
def createStructColTable {σ : Type} (e : Env σ) (columnDesc : ColumnDesc) (s : σ) :
    Except Err String × σ :=
  let t := e.UnixMicro s
  let tableName := tmpName columnDesc.ColName t.1
  let r := e.ExecContext (createSQL tableName columnDesc.ColType) t.2
  match r.1 with
  | some m => (.error (.engine m), r.2)
  | none => (.ok tableName, r.2)

/-- Translation of `dropTable`. -/
def dropTable {σ : Type} (e : Env σ) (tableName : String) (s : σ) : Option Err × σ :=
  let r := e.ExecContext (dropSQL tableName) s
  (r.1.map Err.engine, r.2)

/-- The column `&model.ColumnDesc{ColName: parent + "_" + c.ColName, ColType: c.ColType}`. -/
def prefixed (parent : String) (c : ColumnDesc) : ColumnDesc :=
  ⟨parent ++ "_" ++ c.ColName, c.ColType⟩

/-- The loop `for i := range tableDesc.ColumnDescs` of `FlattenStructColumn`.
`recur` is the recursive call, `columns` the slice built so far.  `none` means
that a recursive call ran out of fuel. -/
def flattenLoop {σ : Type} (m : Model)
    (recur : ColumnDesc → σ → Option ((List ColumnDesc × Option Err) × σ))
    (parent : String) :
    List ColumnDesc → List ColumnDesc → σ → Option ((List ColumnDesc × Option Err) × σ)
  | [], columns, s => some ((columns, none), s)
  | d :: ds, columns, s =>
    if m.IsStruct d.ColType then
      match recur d s with
      | none => none
      | some ((_, some err), s1) => some (([], some err), s1)
      | some ((cols, none), s1) =>
        flattenLoop m recur parent ds (columns ++ cols.map (prefixed parent)) s1
    else
      flattenLoop m recur parent ds (columns ++ [prefixed parent d]) s

/-- Translation of `FlattenStructColumn`.  The result is the Go pair
`(columns, err)` with the state of the environment at return, or `none` when
`fuel` nested calls were not enough.  The deferred `dropTable` runs after the
body on every path that created the relation, and its error is dropped. -/
def FlattenStructColumn {σ : Type} (m : Model) (e : Env σ) :
    Nat → ColumnDesc → σ → Option ((List ColumnDesc × Option Err) × σ)
  | fuel, columnDesc, s =>
    if !m.IsStruct columnDesc.ColType then
      some (([], some .notStruct), s)
    else
      match fuel with
      | 0 => none
      | fuel + 1 =>
        let c := createStructColTable e columnDesc s
        match c.1 with
        | .error err => some (([], some err), c.2)
        | .ok tableName =>
          let d := GetTableDesc e ("SELECT C1.* FROM " ++ tableName) c.2
          match d.1 with
          | .error err => some (([], some err), (dropTable e tableName d.2).2)
          | .ok tableDesc =>
            match flattenLoop m (FlattenStructColumn m e fuel) columnDesc.ColName
                tableDesc.ColumnDescs [] d.2 with
            | none => none
            | some (res, s3) => some (res, (dropTable e tableName s3).2)

/-- The loop `for i := range tableDesc.ColumnDescs` of `getFlattenedTableSelect`:
a struct column contributes what `FlattenStructColumn` returns for it, any other
column contributes itself. -/
def flattenTableLoop {σ : Type} (m : Model) (e : Env σ) (fuel : Nat) :
    List ColumnDesc → List ColumnDesc → σ → Option ((List ColumnDesc × Option Err) × σ)
  | [], flattenedColumns, s => some ((flattenedColumns, none), s)
  | d :: ds, flattenedColumns, s =>
    if m.IsStruct d.ColType then
      match FlattenStructColumn m e fuel d s with
      | none => none
      | some ((_, some err), s1) =>
        some (([], some (.wrap ("failed flattening column: " ++ d.ColName ++ ". error: ") err)), s1)
      | some ((cols, none), s1) => flattenTableLoop m e fuel ds (flattenedColumns ++ cols) s1
    else
      flattenTableLoop m e fuel ds (flattenedColumns ++ [d]) s

/-- The `strings.Builder` loop of `getFlattenedTableSelect`: at index `i` it
writes `unnested[i].ColName + " AS " + flattened[i].ColName` and, when
`i < l-1`, a comma.  The second argument is what is left of `flattenedColumns`
from index `i` on, `sb` is the text written so far. -/
def writeItems (unnested : List ColumnDesc) (l : Nat) :
    List ColumnDesc → Nat → String → String
  | [], _, sb => sb
  | f :: fs, i, sb =>
    let sb1 := sb ++ ((unnested.getD i ⟨"", ""⟩).ColName ++ " AS " ++ f.ColName)
    let sb2 := if i < l - 1 then sb1 ++ "," else sb1
    writeItems unnested l fs (i + 1) sb2

/-- Translation of `getFlattenedTableSelect`.  The result is the Go pair
`(sql, err)` with the state at return, or `none` when the fuel handed to
`FlattenStructColumn` was not enough. -/
def getFlattenedTableSelect {σ : Type} (m : Model) (e : Env σ) (fuel : Nat)
    (tableName : String) (s : σ) : Option ((String × Option Err) × σ) :=
  let d := GetTableDesc e tableName s
  match d.1 with
  | .error err =>
    some (("", some (.wrap "failed getting imported json table desc. error: " err)), d.2)
  | .ok tableDesc =>
    match flattenTableLoop m e fuel tableDesc.ColumnDescs [] d.2 with
    | none => none
    | some ((_, some err), s2) => some (("", some err), s2)
    | some ((flattenedColumns, none), s2) =>
      match m.GetUnnestedColumns tableDesc with
      | (_, some err) =>
        some (("", some (.wrap "failed getting unnested columns. error: " err)), s2)
      | (unnestedCols, none) =>
        let unnestedTableSelect := "SELECT " ++ unnestedCols ++ " FROM " ++ tableName
        let u := GetTableDesc e unnestedTableSelect s2
        match u.1 with
        | .error err =>
          some (("", some (.wrap "failed getting unnested table desc. error: " err)), u.2)
        | .ok unnestedTableDesc =>
          if unnestedTableDesc.ColumnDescs.length ≠ flattenedColumns.length then
            some (("", some (.mismatch unnestedTableDesc.ColumnDescs flattenedColumns)), u.2)
          else
            some ((writeItems unnestedTableDesc.ColumnDescs flattenedColumns.length
                      flattenedColumns 0 "SELECT "
                    ++ (" FROM (" ++ unnestedTableSelect ++ ")"), none), u.2)

end Fileconv

/-! ## The two functions of Go package `strings` that the command uses -/

namespace Strings

/-- The function `strings.Join(elems, sep)`. -/
def Join : List String → String → String
  | [], _ => ""
  | [a], _ => a
  | a :: b :: rest, sep => a ++ sep ++ Join (b :: rest) sep

/-- The pieces of a character list between the occurrences of `sep`. -/
def splitChars (sep : Char) : List Char → List (List Char)
  | [] => [[]]
  | c :: cs =>
    if c = sep then [] :: splitChars sep cs
    else
      match splitChars sep cs with
      | [] => [[c]]
      | p :: ps => (c :: p) :: ps

/-- The function `strings.Split(s, sep)` for a separator of one character,
the only use the command makes of it (`":"`). -/
def Split (s : String) (sep : Char) : List String :=
  (splitChars sep s.data).map String.mk

end Strings

/-! ## `cmd/json2parquet.go` -/

namespace Cmd

/-- A Go `map[string]string`, as the lookup function it denotes. -/
abbrev StrMap := String → Option String

/-- The map literal `map[string]string{}`. -/
def StrMap.empty : StrMap := fun _ => none

/-- The assignment `m[k] = v`. -/
def StrMap.set (m : StrMap) (k v : String) : StrMap :=
  fun x => if x = k then some v else m x

/-- The struct `json2ParquetFlags`. -/
structure json2ParquetFlags where
  disableAutodetect : Bool
  compression : String
  convStr2Int : Bool
  dateformat : String
  filename : Bool
  format : String
  hivePartitioning : Bool
  ignoreErrors : Bool
  maxDepth : Int
  maxObjSize : Nat
  records : String
  sampleSize : Nat
  timestampformat : String
  unionByName : Bool
  columns : StrMap

/-- The getters of `*pflag.FlagSet` that `getJsonReadFlags` calls; each yields
the flag's value or the library's error message. -/
structure FlagSet where
  GetBool : String → Except String Bool
  GetString : String → Except String String
  GetInt64 : String → Except String Int
  GetUint64 : String → Except String Nat
  GetStringSlice : String → Except String (List String)

/-- The loop `for _, col := range cols` of `getJsonReadFlags`; `all` is the
whole slice `cols`, used by the error message. -/
def parseColumns (all : List String) : List String → StrMap → Except String StrMap
  | [], columns => .ok columns
  | col :: rest, columns =>
    let keyDataType := Strings.Split col ':'
    let l := keyDataType.length
    if l < 2 then
      .error ("incorrect columns format: " ++ Strings.Join all ",")
    else if l = 2 then
      parseColumns all rest (columns.set (keyDataType.getD 0 "") (keyDataType.getD 1 ""))
    else
      parseColumns all rest
        (columns.set (Strings.Join (keyDataType.take (l - 1)) ":") (keyDataType.getD (l - 1) ""))

/-- Translation of `getJsonReadFlags`: fourteen getters in source order, then
the columns. -/
def getJsonReadFlags (flags : FlagSet) : Except String json2ParquetFlags := do
  let disableAutodetect ← flags.GetBool "disable-autodetect"
  let compression ← flags.GetString "compression"
  let convStr2Int ← flags.GetBool "convert-str-to-int"
  let dateformat ← flags.GetString "dateformat"
  let filename ← flags.GetBool "filename"
  let format ← flags.GetString "format"
  let hivePartitioning ← flags.GetBool "hive-partitioning"
  let ignoreErrors ← flags.GetBool "ignore-errors"
  let maxDepth ← flags.GetInt64 "max-depth"
  let maxObjSize ← flags.GetUint64 "max-obj-size"
  let records ← flags.GetString "records"
  let sampleSize ← flags.GetUint64 "sample-size"
  let timestampformat ← flags.GetString "timestampformat"
  let unionByName ← flags.GetBool "union-by-name"
  let cols ← flags.GetStringSlice "columns"
  let columns ← parseColumns cols cols StrMap.empty
  return {
    disableAutodetect := disableAutodetect
    compression := compression
    convStr2Int := convStr2Int
    dateformat := dateformat
    filename := filename
    format := format
    hivePartitioning := hivePartitioning
    ignoreErrors := ignoreErrors
    maxDepth := maxDepth
    maxObjSize := maxObjSize
    records := records
    sampleSize := sampleSize
    timestampformat := timestampformat
    unionByName := unionByName
    columns := columns }

end Cmd

/-! ## `pkg/pqconv/json2parquet.go` -/

namespace Pqconv

/-- The statement text of `Json2Parquet`. -/
def copySQL (srcJson dest params : String) : String :=
  "COPY (SELECT * FROM read_json('" ++ srcJson ++ "')) TO '" ++ dest ++ "' " ++ params

/-- Translation of `Json2Parquet`.  `New` is `jsonparam.New` and `Params` is
`(*pqparam.WriteParams).Params`, both of packages outside the files embedded here;
`P`, `J` and `W` are their types `jsonparam.Param`, the value `New` builds, and
`pqparam.WriteParams`.  The value of `New` is assigned to `_`. -/
def Json2Parquet {σ P J W : Type} (New : List P → J) (Params : W → String)
    (e : Fileconv.Env σ) (srcJson dest : String) (pqWriteParams : W)
    (jsonParams : List P) (s : σ) : Option String × σ :=
  let _ := New jsonParams
  let r := e.ExecContext (copySQL srcJson dest (Params pqWriteParams)) s
  match r.1 with
  | some err => (some err, r.2)
  | none => (none, r.2)

end Pqconv

/-! ## Struct types in the engine's type syntax -/

namespace Fileconv

mutual
/-- A column type: a scalar type tag or a struct of named fields. -/
inductive Ty where
  | scalar (tag : String)
  | struct (fields : Fields)
/-- The declared fields of a struct type, in order. -/
inductive Fields where
  | nil
  | cons (name : String) (ty : Ty) (rest : Fields)
end

mutual
/-- The engine's type syntax: `STRUCT(name type, name type, ...)`. -/
def Ty.render : Ty → String
  | .scalar tag => tag
  | .struct fs => "STRUCT(" ++ fs.render ++ ")"
/-- The field list of a struct in the engine's type syntax. -/
def Fields.render : Fields → String
  | .nil => ""
  | .cons n t .nil => n ++ " " ++ t.render
  | .cons n t r => n ++ " " ++ t.render ++ ", " ++ r.render
end

/-- The immediate fields of a struct as rows (name, type) of a description. -/
def Fields.rows : Fields → List (String × String)
  | .nil => []
  | .cons n t r => (n, t.render) :: r.rows

mutual
/-- The leaves of a type in depth-first field order: the field names on the
path from the root to the leaf, and the leaf's declared type. -/
def Ty.leaves : Ty → List (List String × String)
  | .scalar tag => [([], tag)]
  | .struct fs => fs.leaves
/-- The leaves below a field list, field after field. -/
def Fields.leaves : Fields → List (List String × String)
  | .nil => []
  | .cons n t r => t.leaves.map (fun pt => (n :: pt.1, pt.2)) ++ r.leaves
end

/-- One column per leaf: the root name and the path joined with `_`, and the
leaf's type. -/
def leafColumns (root : String) (leaves : List (List String × String)) : List ColumnDesc :=
  leaves.map fun pt => ⟨Strings.Join (root :: pt.1) "_", pt.2⟩

mutual
/-- The number of struct levels of a type. -/
def Ty.depth : Ty → Nat
  | .scalar _ => 0
  | .struct fs => fs.depth + 1
/-- The largest depth among the fields. -/
def Fields.depth : Fields → Nat
  | .nil => 0
  | .cons _ t r => max t.depth r.depth
end

mutual
/-- The engine and `IsStruct` treat a type faithfully: `IsStruct` holds of the rendering of every struct in it and of no
scalar tag in it, and creating a relation with one column of a struct type in
it succeeds, whatever the relation's name and the state, after which describing
`C1.*` of that relation succeeds and delivers exactly the struct's immediate
fields in order, each scanned without error. -/
def Ty.Faithful {σ : Type} (m : Model) (e : Env σ) : Ty → Prop
  | .scalar tag => m.IsStruct tag = false
  | .struct fs =>
    m.IsStruct (Ty.struct fs).render = true ∧
    (∀ (n : String) (s : σ),
      (e.ExecContext (createSQL n (Ty.struct fs).render) s).1 = none ∧
      ∃ rs : Rows, (e.QueryContext (describeSQL ("SELECT C1.* FROM " ++ n))
        (e.ExecContext (createSQL n (Ty.struct fs).render) s).2).1 = .ok rs ∧
        rs.scans = fs.rows.map Except.ok) ∧
    fs.Faithful m e
/-- Every field type is treated faithfully. -/
def Fields.Faithful {σ : Type} (m : Model) (e : Env σ) : Fields → Prop
  | .nil => True
  | .cons _ t r => t.Faithful m e ∧ r.Faithful m e
end

/-- The names of the immediate fields. -/
def Fields.names : Fields → List String
  | .nil => []
  | .cons n _ r => n :: r.names

mutual
/-- Field names are pairwise distinct within every struct of the type. -/
def Ty.DistinctNames : Ty → Prop
  | .scalar _ => True
  | .struct fs => fs.names.Nodup ∧ fs.DistinctBelow
/-- Every field type has distinct names at every level. -/
def Fields.DistinctBelow : Fields → Prop
  | .nil => True
  | .cons _ t r => t.DistinctNames ∧ r.DistinctBelow
end

end Fileconv


/-! ## Sample instances of the parameters, for the concrete cases -/

namespace Fileconv

/-- A sample `model` package: a type is a struct when its tag starts with
`STRUCT`, and the unnested select list names every column, wrapping struct
columns in `UNNEST(...)`. -/
def sampleModel : Model where
  IsStruct ty := decide ("STRUCT".data <+: ty.data)
  GetUnnestedColumns td :=
    (Strings.Join (td.ColumnDescs.map fun c =>
        if decide ("STRUCT".data <+: c.ColType.data) then "UNNEST(" ++ c.ColName ++ ")"
        else c.ColName) ", ", none)

/-- The column definition that ends the statement creating a relation of type `ty`. -/
def columnDef (ty : String) : List Char := (" (C1 " ++ ty ++ ")").data

/-- The fields a schema table lists for the first type whose column definition
ends the statement `stmt`. -/
def schemaLookup (schema : List (String × List (String × String))) (stmt : String) :
    List (String × String) :=
  match schema.find? (fun p => decide (columnDef p.1 <:+ stmt.data)) with
  | some p => p.2
  | none => []

/-- A sample engine whose state is the last statement executed.  Every statement
succeeds; a description answers with the fields the schema table lists for the
type of the relation created last; the clock stands at 0. -/
def schemaEngine (schema : List (String × List (String × String))) : Env String where
  ExecContext stmt _ := (none, stmt)
  QueryContext _ s := (.ok (Rows.ofList (schemaLookup schema s)), s)
  UnixMicro s := (0, s)

/-- No column definition of the table is the end of another one. -/
def schemaOk (schema : List (String × List (String × String))) : Prop :=
  schema.Pairwise fun p q => ¬ columnDef p.1 <:+ columnDef q.1 ∧ ¬ columnDef q.1 <:+ columnDef p.1

instance (schema : List (String × List (String × String))) : Decidable (schemaOk schema) := by
  unfold schemaOk; infer_instance

/-- The fields of the struct of the repository's test, `TestFlattenStructColumn`. -/
def a2Fields : Fields :=
  .cons "b1" (.scalar "VARCHAR")
  (.cons "b2" (.struct
      (.cons "c1" (.scalar "BIGINT")
      (.cons "c2" (.scalar "VARCHAR")
      (.cons "c3" (.struct (.cons "d1" (.scalar "BIGINT") .nil)) .nil))))
  (.cons "b3" (.struct
      (.cons "d1" (.scalar "DOUBLE")
      (.cons "d2" (.scalar "VARCHAR") .nil))) .nil))

/-- What the engine knows about the structs inside the test's type. -/
def a2Schema : List (String × List (String × String)) :=
  [ ("STRUCT(b1 VARCHAR, b2 STRUCT(c1 BIGINT, c2 VARCHAR, c3 STRUCT(d1 BIGINT)), b3 STRUCT(d1 DOUBLE, d2 VARCHAR))",
      [("b1", "VARCHAR"),
       ("b2", "STRUCT(c1 BIGINT, c2 VARCHAR, c3 STRUCT(d1 BIGINT))"),
       ("b3", "STRUCT(d1 DOUBLE, d2 VARCHAR)")]),
    ("STRUCT(c1 BIGINT, c2 VARCHAR, c3 STRUCT(d1 BIGINT))",
      [("c1", "BIGINT"), ("c2", "VARCHAR"), ("c3", "STRUCT(d1 BIGINT)")]),
    ("STRUCT(d1 BIGINT)", [("d1", "BIGINT")]),
    ("STRUCT(d1 DOUBLE, d2 VARCHAR)", [("d1", "DOUBLE"), ("d2", "VARCHAR")]) ]

/-- A struct whose flattened names collide: a scalar field `b_c` next to a
struct field `b` with a field `c`. -/
def collideFields : Fields :=
  .cons "b_c" (.scalar "VARCHAR") (.cons "b" (.struct (.cons "c" (.scalar "BIGINT") .nil)) .nil)

/-- What the engine knows about the structs inside the colliding type. -/
def collideSchema : List (String × List (String × String)) :=
  [ ("STRUCT(b_c VARCHAR, b STRUCT(c BIGINT))", [("b_c", "VARCHAR"), ("b", "STRUCT(c BIGINT)")]),
    ("STRUCT(c BIGINT)", [("c", "BIGINT")]) ]

/-- A sample engine that keeps a log of every statement it receives, in order.
`execErr` decides which executed statements fail and `answer` what a query
returns; the clock stands at 0. -/
def scriptedEngine (execErr : String → Option String)
    (answer : String → Except String Rows) : Env (List String) where
  ExecContext stmt log := (execErr stmt, log ++ [stmt])
  QueryContext q log := (answer q, log ++ [q])
  UnixMicro log := (0, log)

/-- The engine keeps a set of relations, observed by `tables`, the way SQL
prescribes: a successful `CREATE TABLE n` adds `n`, which was not there before;
a successful `DROP TABLE n` removes `n`; a failed statement, a query and a
reading of the clock leave the set as it is. -/
structure TracksRelations {σ : Type} (e : Env σ) (tables : σ → Finset String) : Prop where
  create_ok : ∀ (n ty : String) (s : σ), (e.ExecContext (createSQL n ty) s).1 = none →
    n ∉ tables s ∧ tables (e.ExecContext (createSQL n ty) s).2 = insert n (tables s)
  create_err : ∀ (n ty : String) (s : σ), (e.ExecContext (createSQL n ty) s).1 ≠ none →
    tables (e.ExecContext (createSQL n ty) s).2 = tables s
  drop_ok : ∀ (n : String) (s : σ), (e.ExecContext (dropSQL n) s).1 = none →
    tables (e.ExecContext (dropSQL n) s).2 = (tables s).erase n
  drop_err : ∀ (n : String) (s : σ), (e.ExecContext (dropSQL n) s).1 ≠ none →
    tables (e.ExecContext (dropSQL n) s).2 = tables s
  query : ∀ (q : String) (s : σ), tables (e.QueryContext q s).2 = tables s
  clock : ∀ (s : σ), tables (e.UnixMicro s).2 = tables s

/-- A sample engine whose state is the list of its relations.  It accepts the
creation of the relation `a_tmp_0` of type `STRUCT(b INT)` unless it exists,
describes every relation as the one field `b INT`, and drops an existing
relation when `dropOk` holds; every other statement, and every drop when
`dropOk` does not hold, fails.  The clock stands at 0. -/
def relEngine (dropOk : Bool) : Env (List String) where
  ExecContext stmt rels :=
    if stmt = createSQL "a_tmp_0" "STRUCT(b INT)" then
      if "a_tmp_0" ∈ rels then (some "relation exists", rels) else (none, "a_tmp_0" :: rels)
    else if "DROP TABLE ".data <+: stmt.data then
      if dropOk = true ∧ String.mk (stmt.data.drop 11) ∈ rels then
        (none, rels.filter fun r => r ≠ String.mk (stmt.data.drop 11))
      else (some "drop failed", rels)
    else (some "unsupported statement", rels)
  QueryContext _ rels := (.ok (Rows.ofList [("b", "INT")]), rels)
  UnixMicro rels := (0, rels)

/-- The name of the temporary relation that the call on `c` from state `s` creates. -/
def createdName {σ : Type} (e : Env σ) (c : ColumnDesc) (s : σ) : String :=
  tmpName c.ColName (e.UnixMicro s).1

/-- The engine's answer to the creation of the temporary relation of the call on
`c` from state `s`, and the state after it. -/
def createOutcome {σ : Type} (e : Env σ) (c : ColumnDesc) (s : σ) : Option String × σ :=
  e.ExecContext (createSQL (createdName e c s) c.ColType) (e.UnixMicro s).2

/-- The engine's answer to the description of that relation, and the state after it. -/
def describeOutcome {σ : Type} (e : Env σ) (c : ColumnDesc) (s : σ) :
    Except String Rows × σ :=
  e.QueryContext (describeSQL ("SELECT C1.* FROM " ++ createdName e c s)) (createOutcome e c s).2

/-- During the call of `FlattenStructColumn` with `fuel` on the struct column `c`
from state `s` the engine fails, with message `msg`, a step that the code checks:
the creation of the temporary relation, the description query, or the scan of a
described row, for `c` itself or, all columns before it having been flattened
without error, for a struct column `d` among the described fields, at any
nesting level.  A failure that only `rows.Err()` would report is not among them. -/
inductive EngineFails {σ : Type} (m : Model) (e : Env σ) :
    Nat → ColumnDesc → σ → String → Prop where
  | create (fuel : Nat) (c : ColumnDesc) (s : σ) (msg : String) :
      m.IsStruct c.ColType = true →
      (createOutcome e c s).1 = some msg →
      EngineFails m e (fuel + 1) c s msg
  | query (fuel : Nat) (c : ColumnDesc) (s : σ) (msg : String) :
      m.IsStruct c.ColType = true →
      (createOutcome e c s).1 = none →
      (describeOutcome e c s).1 = .error msg →
      EngineFails m e (fuel + 1) c s msg
  | scan (fuel : Nat) (c : ColumnDesc) (s : σ) (msg : String) (rs : Rows)
      (scanned : List (String × String)) (rest : List (Except String (String × String))) :
      m.IsStruct c.ColType = true →
      (createOutcome e c s).1 = none →
      (describeOutcome e c s).1 = .ok rs →
      rs.scans = scanned.map Except.ok ++ .error msg :: rest →
      EngineFails m e (fuel + 1) c s msg
  | nested (fuel : Nat) (c : ColumnDesc) (s : σ) (msg : String) (rs : Rows)
      (before : List ColumnDesc) (d : ColumnDesc) (after : List ColumnDesc)
      (cols : List ColumnDesc) (s1 : σ) :
      m.IsStruct c.ColType = true →
      (createOutcome e c s).1 = none →
      (describeOutcome e c s).1 = .ok rs →
      scanRows rs.scans [] = .ok (before ++ d :: after) →
      flattenLoop m (FlattenStructColumn m e fuel) c.ColName before []
        (describeOutcome e c s).2 = some ((cols, none), s1) →
      m.IsStruct d.ColType = true →
      EngineFails m e fuel d s1 msg →
      EngineFails m e (fuel + 1) c s msg

/-- The engine `e` with another verdict on every statement that starts with
`DROP TABLE `: the statement has the effect it has on `e`, and `verdict` says
whether it is reported as failed. -/
def withDropVerdict {σ : Type} (e : Env σ) (verdict : String → σ → Option String) : Env σ where
  ExecContext stmt s :=
    if "DROP TABLE ".data <+: stmt.data then (verdict stmt s, (e.ExecContext stmt s).2)
    else e.ExecContext stmt s
  QueryContext := e.QueryContext
  UnixMicro := e.UnixMicro

/-- A sample engine on which the relation of column `a` is created and described
as the one struct field `b STRUCT(c INT)`, and the creation of the relation of
`b` fails. -/
def nestedFailEngine : Env (List String) :=
  scriptedEngine
    (fun stmt => if stmt = "CREATE TABLE b_tmp_0 (C1 STRUCT(c INT))" then some "boom" else none)
    (fun _ => .ok (Rows.ofList [("b", "STRUCT(c INT)")]))

/-- A sample engine for a table `t` with the columns `x INT` and `y INT` whose
unnested description lacks the column `y`. -/
def dropColumnEngine : Env (List String) :=
  scriptedEngine (fun _ => none) fun q =>
    if q = describeSQL "t" then .ok (Rows.ofList [("x", "INT"), ("y", "INT")])
    else .ok (Rows.ofList [("x", "INT")])

/-- A sample engine for a table `t` with the columns `x INT`, `a STRUCT(b INT)` and
`y INT`: it describes the table, the temporary relation of the struct (one field
`b INT`), and the unnested select (`x`, `b`, `y`). -/
def nestedTableEngine : Env (List String) :=
  scriptedEngine (fun _ => none) fun q =>
    if q = describeSQL "t" then
      .ok (Rows.ofList [("x", "INT"), ("a", "STRUCT(b INT)"), ("y", "INT")])
    else if q = describeSQL "SELECT C1.* FROM a_tmp_0" then .ok (Rows.ofList [("b", "INT")])
    else .ok (Rows.ofList [("x", "INT"), ("b", "INT"), ("y", "INT")])

end Fileconv

/-! ## The parts of a `--columns` entry and sample flags -/

namespace Cmd

/-- Everything before the last colon of an entry. -/
def beforeLastColon (entry : String) : String :=
  ⟨((entry.data.reverse.dropWhile fun c => c != ':').drop 1).reverse⟩

/-- Everything after the last colon of an entry. -/
def afterLastColon (entry : String) : String :=
  ⟨(entry.data.reverse.takeWhile fun c => c != ':').reverse⟩

/-- Every flag that `getJsonReadFlags` reads before `columns` can be retrieved. -/
def OthersRetrievable (flags : FlagSet) : Prop :=
  (∃ v, flags.GetBool "disable-autodetect" = .ok v) ∧
  (∃ v, flags.GetString "compression" = .ok v) ∧
  (∃ v, flags.GetBool "convert-str-to-int" = .ok v) ∧
  (∃ v, flags.GetString "dateformat" = .ok v) ∧
  (∃ v, flags.GetBool "filename" = .ok v) ∧
  (∃ v, flags.GetString "format" = .ok v) ∧
  (∃ v, flags.GetBool "hive-partitioning" = .ok v) ∧
  (∃ v, flags.GetBool "ignore-errors" = .ok v) ∧
  (∃ v, flags.GetInt64 "max-depth" = .ok v) ∧
  (∃ v, flags.GetUint64 "max-obj-size" = .ok v) ∧
  (∃ v, flags.GetString "records" = .ok v) ∧
  (∃ v, flags.GetUint64 "sample-size" = .ok v) ∧
  (∃ v, flags.GetString "timestampformat" = .ok v) ∧
  (∃ v, flags.GetBool "union-by-name" = .ok v)

/-- A sample flag set: every flag has the default that `registerJson2ParquetFlags`
gives it, and `--columns` holds the given entries. -/
def sampleFlags (cols : List String) : FlagSet where
  GetBool _ := .ok false
  GetString name :=
    .ok (if name = "compression" then "auto" else if name = "format" then "array"
      else if name = "records" then "auto" else "iso")
  GetInt64 _ := .ok (-1)
  GetUint64 name := .ok (if name = "max-obj-size" then 16777216 else 20480)
  GetStringSlice _ := .ok cols

/-- The character lists joined with a separating character. -/
def joinChars (sep : Char) : List (List Char) → List Char
  | [] => []
  | [a] => a
  | a :: b :: rest => a ++ sep :: joinChars sep (b :: rest)

end Cmd
/-! ## Properties -/

namespace Fileconv

theorem Join_cons_cons (a b : String) (rest : List String) (sep : String) :
    Strings.Join (a :: b :: rest) sep = a ++ sep ++ Strings.Join (b :: rest) sep := rfl

theorem leafColumns_append (root : String) (xs ys : List (List String × String)) :
    leafColumns root (xs ++ ys) = leafColumns root xs ++ leafColumns root ys := by
  simp [leafColumns]

theorem leafColumns_nested (parent n : String) (xs : List (List String × String)) :
    leafColumns parent (xs.map fun pt => (n :: pt.1, pt.2))
      = (leafColumns n xs).map (prefixed parent) := by
  simp [leafColumns, prefixed, Join_cons_cons, Function.comp_def]

theorem scanRows_ok (rows : List (String × String)) :
    ∀ columns : List ColumnDesc,
      scanRows (rows.map Except.ok) columns
        = .ok (columns ++ rows.map fun row => ⟨row.1, row.2⟩) := by
  induction rows with
  | nil => intro columns; simp [scanRows]
  | cons r rest ih => intro columns; simp [scanRows, ih]

theorem GetTableDesc_ok {σ : Type} (e : Env σ) (table : String) (s : σ) (rs : Rows)
    (rows : List (String × String)) (h : (e.QueryContext (describeSQL table) s).1 = .ok rs)
    (hs : rs.scans = rows.map Except.ok) :
    GetTableDesc e table s
      = (.ok ⟨rows.map fun row => ⟨row.1, row.2⟩⟩, (e.QueryContext (describeSQL table) s).2) := by
  simp [GetTableDesc, h, hs, scanRows_ok]

theorem createStructColTable_ok {σ : Type} (e : Env σ) (name ty : String) (s : σ)
    (h : (e.ExecContext (createSQL (tmpName name (e.UnixMicro s).1) ty)
          (e.UnixMicro s).2).1 = none) :
    createStructColTable e ⟨name, ty⟩ s
      = (.ok (tmpName name (e.UnixMicro s).1),
         (e.ExecContext (createSQL (tmpName name (e.UnixMicro s).1) ty)
          (e.UnixMicro s).2).2) := by
  simp [createStructColTable, h]

theorem FlattenStructColumn_struct {σ : Type} (m : Model) (e : Env σ) (fuel : Nat)
    (c : ColumnDesc) (s : σ) (h : m.IsStruct c.ColType = true) :
    FlattenStructColumn m e (fuel + 1) c s =
      match (createStructColTable e c s).1 with
      | .error err => some (([], some err), (createStructColTable e c s).2)
      | .ok tableName =>
        match (GetTableDesc e ("SELECT C1.* FROM " ++ tableName) (createStructColTable e c s).2).1 with
        | .error err => some (([], some err), (dropTable e tableName
            (GetTableDesc e ("SELECT C1.* FROM " ++ tableName) (createStructColTable e c s).2).2).2)
        | .ok tableDesc =>
          match flattenLoop m (FlattenStructColumn m e fuel) c.ColName tableDesc.ColumnDescs []
              (GetTableDesc e ("SELECT C1.* FROM " ++ tableName) (createStructColTable e c s).2).2 with
          | none => none
          | some (res, s3) => some (res, (dropTable e tableName s3).2) := by
  rw [FlattenStructColumn]
  simp only [h, Bool.not_true, Bool.false_eq_true, if_false]

theorem flatten_struct_step {σ : Type} (m : Model) (e : Env σ)
  (fs : Fields) (hT : (Ty.struct fs).Faithful m e)
      (root : String) (k : Nat) (s : σ) 
      (hF : ∀ s, ∃ s1, flattenLoop m (FlattenStructColumn m e k) root
            (fs.rows.map fun row => ⟨row.1, row.2⟩) [] s
          = some ((leafColumns root fs.leaves, none), s1)) : 
        ∃ s1, FlattenStructColumn m e (k+1) ⟨root, (Ty.struct fs).render⟩ s
          = some ((leafColumns root fs.leaves, none), s1) := by
    obtain ⟨hS, hE, -⟩ := hT
    obtain ⟨hc, rs, hq, hrs⟩ := hE (tmpName root (e.UnixMicro s).1) (e.UnixMicro s).2
    generalize (Ty.struct fs).render = ty at *
    obtain ⟨s2, hl⟩ := hF (e.QueryContext (describeSQL ("SELECT C1.* FROM " ++ tmpName root (e.UnixMicro s).1))
          (e.ExecContext (createSQL (tmpName root (e.UnixMicro s).1) ty)
            (e.UnixMicro s).2).2).2
    refine ⟨(dropTable e (tmpName root (e.UnixMicro s).1) s2).2, ?_⟩
    rw [FlattenStructColumn_struct m e k _ s hS]
    rw [createStructColTable_ok e _ _ s hc]
    simp only []
    rw [GetTableDesc_ok e _ _ rs _ hq hrs]
    simp only []
    rw [hl]

theorem flattenLoop_cons_scalar {σ : Type} (m : Model)
    (recur : ColumnDesc → σ → Option ((List ColumnDesc × Option Err) × σ))
    (parent : String) (d : ColumnDesc) (ds columns : List ColumnDesc) (s : σ)
    (h : m.IsStruct d.ColType = false) :
    flattenLoop m recur parent (d :: ds) columns s
      = flattenLoop m recur parent ds (columns ++ [prefixed parent d]) s := by
  simp [flattenLoop, h]

theorem flattenLoop_cons_struct {σ : Type} (m : Model)
    (recur : ColumnDesc → σ → Option ((List ColumnDesc × Option Err) × σ))
    (parent : String) (d : ColumnDesc) (ds columns cols : List ColumnDesc) (s s1 : σ)
    (h : m.IsStruct d.ColType = true) (hr : recur d s = some ((cols, none), s1)) :
    flattenLoop m recur parent (d :: ds) columns s
      = flattenLoop m recur parent ds (columns ++ cols.map (prefixed parent)) s1 := by
  simp [flattenLoop, h, hr]

mutual
theorem flatten_struct_faithful {σ : Type} (m : Model) (e : Env σ) :
    ∀ (fs : Fields), (Ty.struct fs).Faithful m e →
      ∀ (root : String) (fuel : Nat) (s : σ), (Ty.struct fs).depth ≤ fuel →
        ∃ s1, FlattenStructColumn m e fuel ⟨root, (Ty.struct fs).render⟩ s
          = some ((leafColumns root fs.leaves, none), s1)
  | fs, hT, root, fuel, s, hfuel => by
    cases fuel with
    | zero => simp [Ty.depth] at hfuel
    | succ k =>
      have hk : fs.depth ≤ k := by simp [Ty.depth] at hfuel; exact hfuel
      exact flatten_struct_step m e fs hT root k s
        (fun s0 => flatten_fields_faithful m e fs hT.2.2 root k [] s0 hk)
theorem flatten_fields_faithful {σ : Type} (m : Model) (e : Env σ) :
    ∀ (fs : Fields), fs.Faithful m e →
      ∀ (parent : String) (fuel : Nat) (columns : List ColumnDesc) (s : σ), fs.depth ≤ fuel →
        ∃ s1, flattenLoop m (FlattenStructColumn m e fuel) parent
            (fs.rows.map fun row => ⟨row.1, row.2⟩) columns s
          = some ((columns ++ leafColumns parent fs.leaves, none), s1)
  | .nil, _, parent, fuel, columns, s, _ => by
    exact ⟨s, by simp [Fields.rows, flattenLoop, Fields.leaves, leafColumns]⟩
  | .cons n t r, hF, parent, fuel, columns, s, hfuel => by
    have hk : r.depth ≤ fuel := le_trans (le_max_right _ _) hfuel
    have ht : t.depth ≤ fuel := le_trans (le_max_left _ _) hfuel
    match t, hF.1, ht with
    | .scalar tag, hs, _ =>
      obtain ⟨s1, h1⟩ := flatten_fields_faithful m e r hF.2 parent fuel
        (columns ++ [prefixed parent ⟨n, tag⟩]) s hk
      refine ⟨s1, ?_⟩
      have hs : m.IsStruct (ColumnDesc.mk n tag).ColType = false := hs
      have e1 : Fields.rows (.cons n (.scalar tag) r) = (n, tag) :: r.rows := rfl
      have e2 : Fields.leaves (.cons n (.scalar tag) r) = ([n], tag) :: r.leaves := rfl
      rw [e1, e2, List.map_cons, flattenLoop_cons_scalar m _ parent ⟨n, tag⟩ _ _ s hs, h1]
      simp [leafColumns, prefixed, Strings.Join]
    | .struct gs, hs, hg =>
      obtain ⟨s1, h1⟩ := flatten_struct_faithful m e gs hs n fuel s hg
      obtain ⟨s2, h2⟩ := flatten_fields_faithful m e r hF.2 parent fuel
        (columns ++ (leafColumns n gs.leaves).map (prefixed parent)) s1 hk
      refine ⟨s2, ?_⟩
      have hs1 : m.IsStruct (ColumnDesc.mk n (Ty.struct gs).render).ColType = true := hs.1
      have e1 : Fields.rows (.cons n (.struct gs) r) = (n, (Ty.struct gs).render) :: r.rows := rfl
      have e2 : Fields.leaves (.cons n (.struct gs) r)
          = gs.leaves.map (fun pt => (n :: pt.1, pt.2)) ++ r.leaves := rfl
      rw [e1, e2, List.map_cons, flattenLoop_cons_struct m _ parent ⟨n, (Ty.struct gs).render⟩ _ _ _ s s1 hs1 h1, h2,
        leafColumns_append, leafColumns_nested, List.append_assoc]
end

/-! ### The sample engine describes the types of its schema table -/

theorem not_suffix_append {α : Type} (p q x : List α) (h1 : ¬ q <:+ p) (h2 : ¬ p <:+ q) :
    ¬ q <:+ x ++ p := by
  intro h
  rcases List.suffix_or_suffix_of_suffix h (List.suffix_append x p) with h3 | h3
  · exact h1 h3
  · exact h2 h3

theorem createSQL_data (n ty : String) :
    (createSQL n ty).data = ("CREATE TABLE " ++ n).data ++ columnDef ty := by
  simp [createSQL, columnDef, String.data_append]

theorem schemaLookup_createSQL (n : String) :
    ∀ (schema : List (String × List (String × String))), schemaOk schema →
      ∀ (ty : String) (rows : List (String × String)), (ty, rows) ∈ schema →
        schemaLookup schema (createSQL n ty) = rows := by
  intro schema
  induction schema with
  | nil => intro _ ty rows h; simp at h
  | cons p ps ih =>
    intro hok ty rows hmem
    have hok2 : (∀ q ∈ ps, ¬ columnDef p.1 <:+ columnDef q.1 ∧ ¬ columnDef q.1 <:+ columnDef p.1)
        ∧ schemaOk ps := by
      simpa [schemaOk, List.pairwise_cons] using hok
    rcases List.mem_cons.mp hmem with h | h
    · subst h
      have : columnDef ty <:+ (createSQL n ty).data := by
        rw [createSQL_data]; exact List.suffix_append _ _
      simp [schemaLookup, List.find?, this]
    · have hmiss : ¬ columnDef p.1 <:+ (createSQL n ty).data := by
        rw [createSQL_data]
        exact not_suffix_append _ _ _ (hok2.1 (ty, rows) h).1 (hok2.1 (ty, rows) h).2
      have := ih hok2.2 ty rows h
      simpa [schemaLookup, List.find?, hmiss] using this

theorem schemaEngine_describes (schema : List (String × List (String × String)))
    (hok : schemaOk schema) (ty : String) (rows : List (String × String))
    (hmem : (ty, rows) ∈ schema) (n : String) (s : String) :
    ((schemaEngine schema).ExecContext (createSQL n ty) s).1 = none ∧
    ∃ rs : Rows, ((schemaEngine schema).QueryContext (describeSQL ("SELECT C1.* FROM " ++ n))
        ((schemaEngine schema).ExecContext (createSQL n ty) s).2).1 = .ok rs ∧
      rs.scans = rows.map Except.ok := by
  refine ⟨rfl, Rows.ofList (schemaLookup schema (createSQL n ty)), rfl, ?_⟩
  rw [schemaLookup_createSQL n schema hok ty rows hmem]
  rfl

theorem a2Schema_ok : schemaOk a2Schema := by decide

theorem scalar_faithful {σ : Type} (m : Model) (e : Env σ) (tag : String)
    (h : m.IsStruct tag = false) : (Ty.scalar tag).Faithful m e := by
  rw [Ty.Faithful]; exact h

theorem fields_faithful_nil {σ : Type} (m : Model) (e : Env σ) :
    Fields.nil.Faithful m e := by
  rw [Fields.Faithful]; trivial

theorem fields_faithful_cons {σ : Type} (m : Model) (e : Env σ) (n : String) (t : Ty)
    (r : Fields) (ht : t.Faithful m e) (hr : r.Faithful m e) :
    (Fields.cons n t r).Faithful m e := by
  rw [Fields.Faithful]; exact ⟨ht, hr⟩

theorem schemaEngine_struct_faithful (schema : List (String × List (String × String)))
    (hok : schemaOk schema) (fs : Fields)
    (hS : sampleModel.IsStruct (Ty.struct fs).render = true)
    (hmem : ((Ty.struct fs).render, fs.rows) ∈ schema)
    (hF : fs.Faithful sampleModel (schemaEngine schema)) :
    (Ty.struct fs).Faithful sampleModel (schemaEngine schema) := by
  rw [Ty.Faithful]
  exact ⟨hS, fun n s => schemaEngine_describes schema hok _ _ hmem n s, hF⟩

theorem a2_faithful : (Ty.struct a2Fields).Faithful sampleModel (schemaEngine a2Schema) := by
  have hsc : ∀ tag : String, sampleModel.IsStruct tag = false →
      (Ty.scalar tag).Faithful sampleModel (schemaEngine a2Schema) :=
    fun tag h => scalar_faithful _ _ tag h
  have hnil := fields_faithful_nil sampleModel (schemaEngine a2Schema)
  have hc3 := schemaEngine_struct_faithful a2Schema a2Schema_ok
    (.cons "d1" (.scalar "BIGINT") .nil) (by decide) (by decide)
    (fields_faithful_cons _ _ _ _ _ (hsc "BIGINT" (by decide)) hnil)
  have hb2 := schemaEngine_struct_faithful a2Schema a2Schema_ok
    (.cons "c1" (.scalar "BIGINT") (.cons "c2" (.scalar "VARCHAR")
      (.cons "c3" (.struct (.cons "d1" (.scalar "BIGINT") .nil)) .nil)))
    (by decide) (by decide)
    (fields_faithful_cons _ _ _ _ _ (hsc "BIGINT" (by decide))
      (fields_faithful_cons _ _ _ _ _ (hsc "VARCHAR" (by decide))
        (fields_faithful_cons _ _ _ _ _ hc3 hnil)))
  have hb3 := schemaEngine_struct_faithful a2Schema a2Schema_ok
    (.cons "d1" (.scalar "DOUBLE") (.cons "d2" (.scalar "VARCHAR") .nil))
    (by decide) (by decide)
    (fields_faithful_cons _ _ _ _ _ (hsc "DOUBLE" (by decide))
      (fields_faithful_cons _ _ _ _ _ (hsc "VARCHAR" (by decide)) hnil))
  exact schemaEngine_struct_faithful a2Schema a2Schema_ok a2Fields (by decide) (by decide)
    (fields_faithful_cons _ _ _ _ _ (hsc "VARCHAR" (by decide))
      (fields_faithful_cons _ _ _ _ _ hb2 (fields_faithful_cons _ _ _ _ _ hb3 hnil)))

/-! ### Flattening a struct column -/

/-- C1: when `IsStruct` and the engine treat the struct type `STRUCT(fs)` faithfully
(every creation succeeds and the description of the temporary relation lists
exactly the immediate fields in declared order) and the fuel covers the depth of
the type, `FlattenStructColumn` on the column `root` of that type returns, without
error, exactly one column per leaf of the type, in depth-first field order, named
by `root` and the field names on the path to the leaf joined with `_`, and typed
with the leaf's declared type. -/
theorem FlattenStructColumn_leaves {σ : Type} (m : Model) (e : Env σ) (root : String)
    (fs : Fields) (fuel : Nat) (s : σ)
    (hT : (Ty.struct fs).Faithful m e) (hfuel : (Ty.struct fs).depth ≤ fuel) :
    ∃ s1, FlattenStructColumn m e fuel ⟨root, (Ty.struct fs).render⟩ s
      = some ((fs.leaves.map fun pt => ⟨Strings.Join (root :: pt.1) "_", pt.2⟩, none), s1) :=
  flatten_struct_faithful m e fs hT root fuel s hfuel

/-- The case of the repository's test: column `a2` flattens to the six columns
`a2_b1`, `a2_b2_c1`, `a2_b2_c2`, `a2_b2_c3_d1`, `a2_b3_d1`, `a2_b3_d2`. -/
theorem FlattenStructColumn_leaves_witness :
    (Ty.struct a2Fields).Faithful sampleModel (schemaEngine a2Schema) ∧
    (Ty.struct a2Fields).depth ≤ 3 ∧
    (Ty.struct a2Fields).render
      = "STRUCT(b1 VARCHAR, b2 STRUCT(c1 BIGINT, c2 VARCHAR, c3 STRUCT(d1 BIGINT)), b3 STRUCT(d1 DOUBLE, d2 VARCHAR))" ∧
    (a2Fields.leaves.map fun pt => (⟨Strings.Join ("a2" :: pt.1) "_", pt.2⟩ : ColumnDesc))
      = [⟨"a2_b1", "VARCHAR"⟩, ⟨"a2_b2_c1", "BIGINT"⟩, ⟨"a2_b2_c2", "VARCHAR"⟩,
         ⟨"a2_b2_c3_d1", "BIGINT"⟩, ⟨"a2_b3_d1", "DOUBLE"⟩, ⟨"a2_b3_d2", "VARCHAR"⟩] ∧
    ∃ s1, FlattenStructColumn sampleModel (schemaEngine a2Schema) 3
        ⟨"a2", (Ty.struct a2Fields).render⟩ ""
      = some ((a2Fields.leaves.map fun pt => ⟨Strings.Join ("a2" :: pt.1) "_", pt.2⟩, none), s1) :=
  ⟨a2_faithful, by decide, by decide, by decide,
    FlattenStructColumn_leaves sampleModel (schemaEngine a2Schema) "a2" a2Fields 3 ""
      a2_faithful (by decide)⟩

/-- C10: the naming is not injective.  The struct `STRUCT(b_c VARCHAR, b STRUCT(c
BIGINT))` has pairwise distinct field names at every level and two distinct leaf
paths, the engine describes it faithfully, and `FlattenStructColumn` on column `a`
of that type returns two columns that are both named `a_b_c`. -/
theorem FlattenStructColumn_names_collide :
    (Ty.struct collideFields).DistinctNames ∧
    (collideFields.leaves.map Prod.fst).Nodup ∧
    (Ty.struct collideFields).render = "STRUCT(b_c VARCHAR, b STRUCT(c BIGINT))" ∧
    (Ty.struct collideFields).Faithful sampleModel (schemaEngine collideSchema) ∧
    FlattenStructColumn sampleModel (schemaEngine collideSchema) 2
        ⟨"a", "STRUCT(b_c VARCHAR, b STRUCT(c BIGINT))"⟩ ""
      = some (([⟨"a_b_c", "VARCHAR"⟩, ⟨"a_b_c", "BIGINT"⟩], none), "DROP TABLE a_tmp_0") := by
  refine ⟨?_, by decide, by decide, ?_, by decide⟩
  · simp [collideFields, Ty.DistinctNames, Fields.DistinctBelow, Fields.names]
  · have hok : schemaOk collideSchema := by decide
    exact schemaEngine_struct_faithful collideSchema hok collideFields (by decide) (by decide)
      (fields_faithful_cons _ _ _ _ _ (scalar_faithful _ _ _ (by decide))
        (fields_faithful_cons _ _ _ _ _
          (schemaEngine_struct_faithful collideSchema hok
            (.cons "c" (.scalar "BIGINT") .nil) (by decide) (by decide)
            (fields_faithful_cons _ _ _ _ _ (scalar_faithful _ _ _ (by decide))
              (fields_faithful_nil _ _)))
          (fields_faithful_nil _ _)))

/-- C2: on a column whose type is not a struct, `FlattenStructColumn` returns no
columns and the error `column type not STRUCT`, whatever the fuel, and the state
of the environment is the one it started from: no statement reaches the engine. -/
theorem FlattenStructColumn_not_struct {σ : Type} (m : Model) (e : Env σ) (fuel : Nat)
    (c : ColumnDesc) (s : σ) (h : m.IsStruct c.ColType = false) :
    FlattenStructColumn m e fuel c s = some (([], some Err.notStruct), s) := by
  cases fuel <;> simp [FlattenStructColumn, h]

/-- On a `VARCHAR` column the logging engine ends with an empty log. -/
theorem FlattenStructColumn_not_struct_witness :
    sampleModel.IsStruct (ColumnDesc.mk "x" "VARCHAR").ColType = false ∧
    FlattenStructColumn sampleModel (scriptedEngine (fun _ => none) (fun _ => .ok (Rows.ofList []))) 0
        ⟨"x", "VARCHAR"⟩ []
      = some (([], some Err.notStruct), []) :=
  ⟨by decide, FlattenStructColumn_not_struct sampleModel _ 0 ⟨"x", "VARCHAR"⟩ [] (by decide)⟩

/-! ### Temporary relations -/

theorem GetTableDesc_state {σ : Type} (e : Env σ) (table : String) (s : σ) :
    (GetTableDesc e table s).2 = (e.QueryContext (describeSQL table) s).2 := by
  unfold GetTableDesc
  simp only []
  split
  · rfl
  · split <;> rfl

theorem createStructColTable_err {σ : Type} (e : Env σ) (name ty : String) (s : σ) (msg : String)
    (h : (e.ExecContext (createSQL (tmpName name (e.UnixMicro s).1) ty)
          (e.UnixMicro s).2).1 = some msg) :
    createStructColTable e ⟨name, ty⟩ s
      = (.error (.engine msg),
         (e.ExecContext (createSQL (tmpName name (e.UnixMicro s).1) ty)
          (e.UnixMicro s).2).2) := by
  simp [createStructColTable, h]

theorem dropTable_state {σ : Type} (e : Env σ) (n : String) (s : σ) :
    (dropTable e n s).2 = (e.ExecContext (dropSQL n) s).2 := rfl

theorem flattenLoop_tables {σ : Type} (m : Model) (tables : σ → Finset String)
    (recur : ColumnDesc → σ → Option ((List ColumnDesc × Option Err) × σ))
    (hrec : ∀ d s r s1, recur d s = some (r, s1) → tables s1 = tables s)
    (parent : String) :
    ∀ (ds columns : List ColumnDesc) (s : σ) (r : List ColumnDesc × Option Err) (s1 : σ),
      flattenLoop m recur parent ds columns s = some (r, s1) → tables s1 = tables s := by
  intro ds
  induction ds with
  | nil =>
    intro columns s r s1 h
    simp only [flattenLoop, Option.some.injEq, Prod.mk.injEq] at h
    rw [← h.2]
  | cons d ds ih =>
    intro columns s r s1 h
    rw [flattenLoop] at h
    split at h
    · split at h
      · exact absurd h (by simp)
      · rename_i hre
        simp only [Option.some.injEq, Prod.mk.injEq] at h
        rw [← h.2]; exact hrec _ _ _ _ hre
      · rename_i hre
        rw [ih _ _ _ _ h]; exact hrec _ _ _ _ hre
    · exact ih _ _ _ _ h

theorem drop_created {σ : Type} (e : Env σ) (tables : σ → Finset String)
    (hT : TracksRelations e tables)
    (hD : ∀ (n : String) (s : σ), n ∈ tables s → (e.ExecContext (dropSQL n) s).1 = none)
    (n : String) (A : Finset String) (hn : n ∉ A) (s : σ) (hs : tables s = insert n A) :
    tables (dropTable e n s).2 = A := by
  have hmem : n ∈ tables s := by rw [hs]; exact Finset.mem_insert_self n A
  rw [dropTable_state, hT.drop_ok n s (hD n s hmem), hs, Finset.erase_insert hn]

theorem FlattenStructColumn_tables {σ : Type} (m : Model) (e : Env σ)
    (tables : σ → Finset String) (hT : TracksRelations e tables)
    (hD : ∀ (n : String) (s : σ), n ∈ tables s → (e.ExecContext (dropSQL n) s).1 = none) :
    ∀ (fuel : Nat) (c : ColumnDesc) (s : σ) (r : List ColumnDesc × Option Err) (s1 : σ),
      FlattenStructColumn m e fuel c s = some (r, s1) → tables s1 = tables s := by
  intro fuel
  induction fuel with
  | zero =>
    intro c s r s1 h
    by_cases hS : m.IsStruct c.ColType = true
    · simp [FlattenStructColumn, hS] at h
    · simp [FlattenStructColumn, hS] at h
      rw [← h.2]
  | succ k ih =>
    intro c s r s1 h
    by_cases hS : m.IsStruct c.ColType = true
    · rw [FlattenStructColumn_struct m e k c s hS] at h
      obtain ⟨name, ty⟩ := c
      have hclock := hT.clock s
      cases hcr : (e.ExecContext (createSQL (tmpName name (e.UnixMicro s).1) ty)
          (e.UnixMicro s).2).1 with
      | some msg =>
        rw [createStructColTable_err e name ty s msg hcr] at h
        simp only [Option.some.injEq, Prod.mk.injEq] at h
        rw [← h.2, hT.create_err _ _ _ (by rw [hcr]; simp), hclock]
      | none =>
        rw [createStructColTable_ok e name ty s hcr] at h
        simp only [] at h
        obtain ⟨hfresh, hins⟩ := hT.create_ok _ _ _ hcr
        rw [hclock] at hfresh hins
        have hq : tables (GetTableDesc e ("SELECT C1.* FROM " ++ tmpName name (e.UnixMicro s).1)
            (e.ExecContext (createSQL (tmpName name (e.UnixMicro s).1) ty)
              (e.UnixMicro s).2).2).2 = insert (tmpName name (e.UnixMicro s).1) (tables s) := by
          rw [GetTableDesc_state, hT.query, hins]
        split at h
        · simp only [Option.some.injEq, Prod.mk.injEq] at h
          rw [← h.2]
          exact drop_created e tables hT hD _ _ hfresh _ hq
        · split at h
          · exact absurd h (by simp)
          · rename_i hloop
            simp only [Option.some.injEq, Prod.mk.injEq] at h
            rw [← h.2]
            refine drop_created e tables hT hD _ _ hfresh _ ?_
            rw [flattenLoop_tables m tables _ (ih) _ _ _ _ _ _ hloop, hq]
    · simp [FlattenStructColumn, hS] at h
      rw [← h.2]

/-! ### The sample engine with relations keeps the SQL discipline -/

theorem createSQL_sample_name (n ty : String)
    (h : createSQL n ty = createSQL "a_tmp_0" "STRUCT(b INT)") : n = "a_tmp_0" := by
  have h1 : (createSQL n ty).data = (createSQL "a_tmp_0" "STRUCT(b INT)").data := by rw [h]
  have h2 : n.data ++ (" (C1 ".data ++ (ty.data ++ ")".data))
      = "a_tmp_0 (C1 STRUCT(b INT))".data := by
    have h3 : "CREATE TABLE ".data ++ (n.data ++ (" (C1 ".data ++ (ty.data ++ ")".data)))
        = "CREATE TABLE ".data ++ "a_tmp_0 (C1 STRUCT(b INT))".data := by
      simpa [createSQL, String.data_append, List.append_assoc] using h1
    exact List.append_cancel_left h3
  have hpre : n.data <+: "a_tmp_0 (C1 STRUCT(b INT))".data := ⟨_, h2⟩
  have hrest : " (C1 ".data <+: "a_tmp_0 (C1 STRUCT(b INT))".data.drop n.data.length := by
    rw [← h2, List.drop_left]
    exact List.prefix_append _ _
  have hall : ∀ x ∈ "a_tmp_0 (C1 STRUCT(b INT))".data.inits,
      " (C1 ".data <+: "a_tmp_0 (C1 STRUCT(b INT))".data.drop x.length → x = "a_tmp_0".data := by
    decide
  have hn := hall n.data ((List.mem_inits _ _).mpr hpre) hrest
  exact String.ext hn

theorem createSQL_not_drop (n ty : String) : ¬ "DROP TABLE ".data <+: (createSQL n ty).data := by
  rintro ⟨t, ht⟩
  simp [createSQL, String.data_append] at ht

theorem dropSQL_ne_create (n : String) : dropSQL n ≠ createSQL "a_tmp_0" "STRUCT(b INT)" := by
  intro h
  have h1 : (dropSQL n).data = (createSQL "a_tmp_0" "STRUCT(b INT)").data := by rw [h]
  simp [dropSQL, createSQL, String.data_append] at h1

theorem dropSQL_is_drop (n : String) : "DROP TABLE ".data <+: (dropSQL n).data :=
  ⟨n.data, by simp [dropSQL, String.data_append]⟩

theorem dropSQL_name (n : String) : String.mk ((dropSQL n).data.drop 11) = n := by
  apply String.ext
  simp [dropSQL, String.data_append]

theorem relEngine_exec (dropOk : Bool) (stmt : String) (rels : List String) :
    (relEngine dropOk).ExecContext stmt rels =
      if stmt = createSQL "a_tmp_0" "STRUCT(b INT)" then
        if "a_tmp_0" ∈ rels then (some "relation exists", rels) else (none, "a_tmp_0" :: rels)
      else if "DROP TABLE ".data <+: stmt.data then
        if dropOk = true ∧ String.mk (stmt.data.drop 11) ∈ rels then
          (none, rels.filter fun r => r ≠ String.mk (stmt.data.drop 11))
        else (some "drop failed", rels)
      else (some "unsupported statement", rels) := rfl

theorem relEngine_create (dropOk : Bool) (n ty : String) (rels : List String) :
    (relEngine dropOk).ExecContext (createSQL n ty) rels =
      if createSQL n ty = createSQL "a_tmp_0" "STRUCT(b INT)" then
        if "a_tmp_0" ∈ rels then (some "relation exists", rels) else (none, "a_tmp_0" :: rels)
      else (some "unsupported statement", rels) := by
  rw [relEngine_exec]
  split
  · rfl
  · rw [if_neg (createSQL_not_drop n ty)]

theorem relEngine_drop (dropOk : Bool) (n : String) (rels : List String) :
    (relEngine dropOk).ExecContext (dropSQL n) rels =
      if dropOk = true ∧ n ∈ rels then (none, rels.filter fun r => r ≠ n)
      else (some "drop failed", rels) := by
  rw [relEngine_exec, if_neg (dropSQL_ne_create n), if_pos (dropSQL_is_drop n), dropSQL_name]

theorem relEngine_tracks (dropOk : Bool) :
    TracksRelations (relEngine dropOk) (fun rels => rels.toFinset) where
  create_ok := by
    intro n ty s h
    rw [relEngine_create] at h ⊢
    by_cases hc : createSQL n ty = createSQL "a_tmp_0" "STRUCT(b INT)"
    · have hn := createSQL_sample_name n ty hc
      subst hn
      rw [if_pos hc] at h ⊢
      by_cases hm : "a_tmp_0" ∈ s
      · rw [if_pos hm] at h; exact absurd h (by simp)
      · rw [if_neg hm]; simp [hm]
    · rw [if_neg hc] at h; exact absurd h (by simp)
  create_err := by
    intro n ty s h
    rw [relEngine_create] at h ⊢
    by_cases hc : createSQL n ty = createSQL "a_tmp_0" "STRUCT(b INT)"
    · rw [if_pos hc] at h ⊢
      by_cases hm : "a_tmp_0" ∈ s
      · rw [if_pos hm]
      · rw [if_neg hm] at h; exact absurd rfl h
    · rw [if_neg hc]
  drop_ok := by
    intro n s h
    rw [relEngine_drop] at h ⊢
    by_cases hd : dropOk = true ∧ n ∈ s
    · rw [if_pos hd]
      ext x
      simp [List.mem_filter, and_comm]
    · rw [if_neg hd] at h; exact absurd h (by simp)
  drop_err := by
    intro n s h
    rw [relEngine_drop] at h ⊢
    by_cases hd : dropOk = true ∧ n ∈ s
    · rw [if_pos hd] at h; exact absurd rfl h
    · rw [if_neg hd]
  query := by intro q s; rfl
  clock := by intro s; rfl

/-- C3, as amended: when the engine keeps its set of relations the way SQL
prescribes and does not fail the drop of a relation that exists, every call of
`FlattenStructColumn` that returns, with columns or with an error, leaves the set
of relations as it found it: every temporary relation created at any nesting
level has been dropped again. -/
theorem FlattenStructColumn_restores_relations {σ : Type} (m : Model) (e : Env σ)
    (tables : σ → Finset String) (fuel : Nat) (c : ColumnDesc) (s : σ)
    (r : List ColumnDesc × Option Err) (s1 : σ)
    (hT : TracksRelations e tables)
    (hD : ∀ (n : String) (s : σ), n ∈ tables s → (e.ExecContext (dropSQL n) s).1 = none)
    (h : FlattenStructColumn m e fuel c s = some (r, s1)) :
    tables s1 = tables s :=
  FlattenStructColumn_tables m e tables hT hD fuel c s r s1 h

/-- With drops that succeed, flattening `a STRUCT(b INT)` on the sample engine
returns `a_b` and leaves the relations as they were: `orders` alone. -/
theorem FlattenStructColumn_restores_relations_witness :
    TracksRelations (relEngine true) (fun rels => rels.toFinset) ∧
    (∀ (n : String) (s : List String), n ∈ s.toFinset →
      ((relEngine true).ExecContext (dropSQL n) s).1 = none) ∧
    FlattenStructColumn sampleModel (relEngine true) 1 ⟨"a", "STRUCT(b INT)"⟩ ["orders"]
      = some (([⟨"a_b", "INT"⟩], none), ["orders"]) ∧
    (["orders"] : List String).toFinset = (["orders"] : List String).toFinset :=
  have hD : ∀ (n : String) (s : List String), n ∈ s.toFinset →
      ((relEngine true).ExecContext (dropSQL n) s).1 = none := by
    intro n s hn
    have hn2 : n ∈ s := by simpa using hn
    rw [relEngine_drop, if_pos ⟨rfl, hn2⟩]
  ⟨relEngine_tracks true, hD, by decide,
    FlattenStructColumn_restores_relations sampleModel (relEngine true)
      (fun rels => rels.toFinset) 1 ⟨"a", "STRUCT(b INT)"⟩ ["orders"]
      ([⟨"a_b", "INT"⟩], none) ["orders"] (relEngine_tracks true) hD (by decide)⟩

/-- C3 fails as stated: this engine keeps its relations the way SQL prescribes
but fails every drop; flattening `a STRUCT(b INT)` returns `a_b` without error and
the temporary relation `a_tmp_0` is still there, next to `orders`. -/
theorem FlattenStructColumn_orphan_relation :
    TracksRelations (relEngine false) (fun rels => rels.toFinset) ∧
    FlattenStructColumn sampleModel (relEngine false) 1 ⟨"a", "STRUCT(b INT)"⟩ ["orders"]
      = some (([⟨"a_b", "INT"⟩], none), ["a_tmp_0", "orders"]) ∧
    (["a_tmp_0", "orders"] : List String).toFinset ≠ (["orders"] : List String).toFinset :=
  ⟨relEngine_tracks false, by decide, by decide⟩

/-! ### Engine errors -/

theorem scanRows_error (scanned : List (String × String)) (msg : String)
    (rest : List (Except String (String × String))) :
    ∀ columns : List ColumnDesc,
      scanRows (scanned.map Except.ok ++ .error msg :: rest) columns = .error (.engine msg) := by
  induction scanned with
  | nil => intro columns; simp [scanRows]
  | cons r rs ih => intro columns; simp [scanRows, ih]

theorem flattenLoop_append {σ : Type} (m : Model)
    (recur : ColumnDesc → σ → Option ((List ColumnDesc × Option Err) × σ)) (parent : String)
    (rest : List ColumnDesc) :
    ∀ (before columns cols : List ColumnDesc) (s s1 : σ),
      flattenLoop m recur parent before columns s = some ((cols, none), s1) →
      flattenLoop m recur parent (before ++ rest) columns s
        = flattenLoop m recur parent rest cols s1 := by
  intro before
  induction before with
  | nil =>
    intro columns cols s s1 h
    simp only [flattenLoop, Option.some.injEq, Prod.mk.injEq] at h
    rw [List.nil_append, ← h.1.1, ← h.2]
  | cons d ds ih =>
    intro columns cols s s1 h
    rw [flattenLoop] at h
    rw [List.cons_append, flattenLoop]
    split at h
    · rename_i hS
      rw [if_pos hS]
      split at h
      · exact absurd h (by simp)
      · simp at h
      · exact ih _ _ _ _ h
    · rename_i hS
      rw [if_neg hS]
      exact ih _ _ _ _ h

theorem flattenLoop_cons_error {σ : Type} (m : Model)
    (recur : ColumnDesc → σ → Option ((List ColumnDesc × Option Err) × σ))
    (parent : String) (d : ColumnDesc) (ds columns cols : List ColumnDesc) (s s1 : σ) (err : Err)
    (h : m.IsStruct d.ColType = true) (hr : recur d s = some ((cols, some err), s1)) :
    flattenLoop m recur parent (d :: ds) columns s = some (([], some err), s1) := by
  simp [flattenLoop, h, hr]

theorem createStructColTable_outcome {σ : Type} (e : Env σ) (c : ColumnDesc) (s : σ) :
    createStructColTable e c s
      = match (createOutcome e c s).1 with
        | some msg => (.error (.engine msg), (createOutcome e c s).2)
        | none => (.ok (createdName e c s), (createOutcome e c s).2) := rfl

theorem GetTableDesc_outcome {σ : Type} (e : Env σ) (c : ColumnDesc) (s : σ) :
    GetTableDesc e ("SELECT C1.* FROM " ++ createdName e c s) (createOutcome e c s).2
      = match (describeOutcome e c s).1 with
        | .error msg => (.error (.engine msg), (describeOutcome e c s).2)
        | .ok rows =>
          match scanRows rows.scans [] with
          | .error err => (.error err, (describeOutcome e c s).2)
          | .ok columns => (.ok ⟨columns⟩, (describeOutcome e c s).2) := rfl

theorem FlattenStructColumn_create_fails {σ : Type} (m : Model) (e : Env σ) (fuel : Nat)
    (c : ColumnDesc) (s : σ) (msg : String) (hS : m.IsStruct c.ColType = true)
    (hc : (createOutcome e c s).1 = some msg) :
    FlattenStructColumn m e (fuel + 1) c s
      = some (([], some (.engine msg)), (createOutcome e c s).2) := by
  rw [FlattenStructColumn_struct m e fuel c s hS, createStructColTable_outcome, hc]

theorem FlattenStructColumn_describe_fails {σ : Type} (m : Model) (e : Env σ) (fuel : Nat)
    (c : ColumnDesc) (s : σ) (err : Err) (hS : m.IsStruct c.ColType = true)
    (hc : (createOutcome e c s).1 = none)
    (hd : (GetTableDesc e ("SELECT C1.* FROM " ++ createdName e c s) (createOutcome e c s).2).1
      = .error err) :
    FlattenStructColumn m e (fuel + 1) c s
      = some (([], some err),
          (e.ExecContext (dropSQL (createdName e c s)) (describeOutcome e c s).2).2) := by
  rw [FlattenStructColumn_struct m e fuel c s hS, createStructColTable_outcome, hc]
  simp only []
  rw [hd]
  simp only [dropTable_state, GetTableDesc_state]
  rfl

theorem FlattenStructColumn_of_fails {σ : Type} (m : Model) (e : Env σ) :
    ∀ (fuel : Nat) (c : ColumnDesc) (s : σ) (msg : String), EngineFails m e fuel c s msg →
      ∃ s1, FlattenStructColumn m e fuel c s = some (([], some (.engine msg)), s1) := by
  intro fuel c s msg h
  induction h with
  | create fuel c s msg hS hc =>
    exact ⟨_, FlattenStructColumn_create_fails m e fuel c s msg hS hc⟩
  | query fuel c s msg hS hc hq =>
    refine ⟨_, FlattenStructColumn_describe_fails m e fuel c s (.engine msg) hS hc ?_⟩
    rw [GetTableDesc_outcome, hq]
  | scan fuel c s msg rs scanned rest hS hc hq hscan =>
    refine ⟨_, FlattenStructColumn_describe_fails m e fuel c s (.engine msg) hS hc ?_⟩
    rw [GetTableDesc_outcome, hq]
    simp only []
    rw [hscan, scanRows_error]
  | nested fuel c s msg rs before d after cols s1 hS hc hq hscan hloop hd _ ih =>
    obtain ⟨s2, h2⟩ := ih
    refine ⟨(dropTable e (createdName e c s) s2).2, ?_⟩
    rw [FlattenStructColumn_struct m e fuel c s hS, createStructColTable_outcome, hc]
    simp only []
    rw [GetTableDesc_outcome, hq]
    simp only []
    rw [hscan]
    simp only []
    rw [flattenLoop_append m _ _ _ _ _ _ _ _ hloop,
      flattenLoop_cons_error m _ _ d after cols [] s1 s2 (.engine msg) hd h2]

theorem createStructColTable_withDropVerdict {σ : Type} (e : Env σ)
    (verdict : String → σ → Option String) (c : ColumnDesc) (s : σ) :
    createStructColTable (withDropVerdict e verdict) c s = createStructColTable e c s := by
  unfold createStructColTable
  simp only [withDropVerdict, if_neg (createSQL_not_drop _ _)]

theorem GetTableDesc_withDropVerdict {σ : Type} (e : Env σ)
    (verdict : String → σ → Option String) (table : String) (s : σ) :
    GetTableDesc (withDropVerdict e verdict) table s = GetTableDesc e table s := rfl

theorem dropTable_withDropVerdict {σ : Type} (e : Env σ)
    (verdict : String → σ → Option String) (n : String) (s : σ) :
    (dropTable (withDropVerdict e verdict) n s).2 = (dropTable e n s).2 := by
  simp only [dropTable, withDropVerdict, if_pos (dropSQL_is_drop n)]

theorem FlattenStructColumn_withDropVerdict {σ : Type} (m : Model) (e : Env σ)
    (verdict : String → σ → Option String) :
    ∀ (fuel : Nat) (c : ColumnDesc) (s : σ),
      FlattenStructColumn m (withDropVerdict e verdict) fuel c s
        = FlattenStructColumn m e fuel c s := by
  intro fuel
  induction fuel with
  | zero =>
    intro c s
    by_cases hS : m.IsStruct c.ColType = true <;> simp [FlattenStructColumn, hS]
  | succ k ih =>
    intro c s
    by_cases hS : m.IsStruct c.ColType = true
    · have hrec : FlattenStructColumn m (withDropVerdict e verdict) k
          = FlattenStructColumn m e k := by
        funext c s; exact ih c s
      rw [FlattenStructColumn_struct m _ k c s hS, FlattenStructColumn_struct m e k c s hS]
      simp only [createStructColTable_withDropVerdict, GetTableDesc_withDropVerdict,
        dropTable_withDropVerdict, hrec]
    · simp [FlattenStructColumn, hS]

/-- C8, as amended: `FlattenStructColumn` fails with the engine's error whenever the
engine fails a step that the code checks, at any nesting level: the creation of
a temporary relation, the description query, or the scan of a described row.
When the creation of the column's own relation fails nothing is dropped; when
its description query fails the relation is dropped before the return.  The
engine's verdict on the drops is discarded: whatever it is, the result and the
state after the call are the same. -/
theorem FlattenStructColumn_engine_error {σ : Type} (m : Model) (e : Env σ) (fuel : Nat)
    (c : ColumnDesc) (s : σ) :
    (∀ msg : String, EngineFails m e fuel c s msg →
      ∃ s1, FlattenStructColumn m e fuel c s = some (([], some (.engine msg)), s1)) ∧
    (m.IsStruct c.ColType = true → ∀ msg : String, (createOutcome e c s).1 = some msg →
      FlattenStructColumn m e (fuel + 1) c s
        = some (([], some (.engine msg)), (createOutcome e c s).2)) ∧
    (m.IsStruct c.ColType = true → ∀ msg : String, (createOutcome e c s).1 = none →
      (describeOutcome e c s).1 = .error msg →
      FlattenStructColumn m e (fuel + 1) c s
        = some (([], some (.engine msg)),
            (e.ExecContext (dropSQL (createdName e c s)) (describeOutcome e c s).2).2)) ∧
    (∀ verdict : String → σ → Option String,
      FlattenStructColumn m (withDropVerdict e verdict) fuel c s
        = FlattenStructColumn m e fuel c s) := by
  refine ⟨fun msg h => FlattenStructColumn_of_fails m e fuel c s msg h,
    fun hS msg hc => FlattenStructColumn_create_fails m e fuel c s msg hS hc,
    fun hS msg hc hq => ?_,
    fun verdict => FlattenStructColumn_withDropVerdict m e verdict fuel c s⟩
  refine FlattenStructColumn_describe_fails m e fuel c s (.engine msg) hS hc ?_
  rw [GetTableDesc_outcome, hq]

/-- A failing creation: the log holds the creation alone.  A failing description
query: the log holds the creation, the description and the drop.  A failing scan
of the second described row, and a failing creation one level down, where the
log holds the creation and description of `a`, the failed creation of `b` and
the drop of `a`.  And a verdict `boom` on every drop changes nothing. -/
theorem FlattenStructColumn_engine_error_witness :
    FlattenStructColumn sampleModel
        (scriptedEngine (fun _ => some "boom") (fun _ => .ok (Rows.ofList []))) 1
        ⟨"a", "STRUCT(b INT)"⟩ []
      = some (([], some (.engine "boom")), ["CREATE TABLE a_tmp_0 (C1 STRUCT(b INT))"]) ∧
    FlattenStructColumn sampleModel (scriptedEngine (fun _ => none) (fun _ => .error "boom")) 1
        ⟨"a", "STRUCT(b INT)"⟩ []
      = some (([], some (.engine "boom")),
          ["CREATE TABLE a_tmp_0 (C1 STRUCT(b INT))",
           "SELECT COLUMN_NAME, COLUMN_TYPE FROM (DESCRIBE SELECT C1.* FROM a_tmp_0)",
           "DROP TABLE a_tmp_0"]) ∧
    (∃ s1, FlattenStructColumn sampleModel
        (scriptedEngine (fun _ => none)
          (fun _ => .ok ⟨[.ok ("b", "INT"), .error "boom"], none⟩)) 1
        ⟨"a", "STRUCT(b INT)"⟩ []
      = some (([], some (.engine "boom")), s1)) ∧
    (∃ s1, FlattenStructColumn sampleModel nestedFailEngine 2
        ⟨"a", "STRUCT(b STRUCT(c INT))"⟩ []
      = some (([], some (.engine "boom")), s1)) ∧
    FlattenStructColumn sampleModel nestedFailEngine 2 ⟨"a", "STRUCT(b STRUCT(c INT))"⟩ []
      = some (([], some (.engine "boom")),
          ["CREATE TABLE a_tmp_0 (C1 STRUCT(b STRUCT(c INT)))",
           "SELECT COLUMN_NAME, COLUMN_TYPE FROM (DESCRIBE SELECT C1.* FROM a_tmp_0)",
           "CREATE TABLE b_tmp_0 (C1 STRUCT(c INT))",
           "DROP TABLE a_tmp_0"]) ∧
    FlattenStructColumn sampleModel
        (withDropVerdict
          (scriptedEngine (fun _ => none) (fun _ => .ok (Rows.ofList [("b", "INT")])))
          (fun _ _ => some "boom")) 1
        ⟨"a", "STRUCT(b INT)"⟩ []
      = FlattenStructColumn sampleModel
          (scriptedEngine (fun _ => none) (fun _ => .ok (Rows.ofList [("b", "INT")]))) 1
          ⟨"a", "STRUCT(b INT)"⟩ [] :=
  ⟨(FlattenStructColumn_engine_error sampleModel
      (scriptedEngine (fun _ => some "boom") (fun _ => .ok (Rows.ofList []))) 0
      ⟨"a", "STRUCT(b INT)"⟩ []).2.1 (by decide) "boom" rfl,
   (FlattenStructColumn_engine_error sampleModel
      (scriptedEngine (fun _ => none) (fun _ => .error "boom")) 0
      ⟨"a", "STRUCT(b INT)"⟩ []).2.2.1 (by decide) "boom" rfl rfl,
   (FlattenStructColumn_engine_error sampleModel
      (scriptedEngine (fun _ => none) (fun _ => .ok ⟨[.ok ("b", "INT"), .error "boom"], none⟩)) 1
      ⟨"a", "STRUCT(b INT)"⟩ []).1 "boom"
      (EngineFails.scan 0 ⟨"a", "STRUCT(b INT)"⟩ [] "boom"
        ⟨[.ok ("b", "INT"), .error "boom"], none⟩ [("b", "INT")] []
        (by decide) rfl rfl rfl),
   (FlattenStructColumn_engine_error sampleModel nestedFailEngine 2
      ⟨"a", "STRUCT(b STRUCT(c INT))"⟩ []).1 "boom"
      (EngineFails.nested 1 ⟨"a", "STRUCT(b STRUCT(c INT))"⟩ [] "boom"
        (Rows.ofList [("b", "STRUCT(c INT)")]) [] ⟨"b", "STRUCT(c INT)"⟩ [] []
        ["CREATE TABLE a_tmp_0 (C1 STRUCT(b STRUCT(c INT)))",
         "SELECT COLUMN_NAME, COLUMN_TYPE FROM (DESCRIBE SELECT C1.* FROM a_tmp_0)"]
        (by decide) rfl rfl rfl rfl (by decide)
        (EngineFails.create 0 ⟨"b", "STRUCT(c INT)"⟩ _ "boom" (by decide) rfl)),
   by decide,
   (FlattenStructColumn_engine_error sampleModel
      (scriptedEngine (fun _ => none) (fun _ => .ok (Rows.ofList [("b", "INT")]))) 1
      ⟨"a", "STRUCT(b INT)"⟩ []).2.2.2 (fun _ _ => some "boom")⟩

/-- C8 fails as stated: on this engine the creation and the description succeed and
the drop of the temporary relation fails, yet `FlattenStructColumn` returns the
column `a_b` and no error. -/
theorem FlattenStructColumn_drop_error_discarded :
    sampleModel.IsStruct "STRUCT(b INT)" = true ∧
    ((scriptedEngine (fun stmt => if stmt = "DROP TABLE a_tmp_0" then some "boom" else none)
        (fun _ => .ok (Rows.ofList [("b", "INT")]))).ExecContext (dropSQL (tmpName "a" 0))
        ["CREATE TABLE a_tmp_0 (C1 STRUCT(b INT))",
         "SELECT COLUMN_NAME, COLUMN_TYPE FROM (DESCRIBE SELECT C1.* FROM a_tmp_0)"]).1
      = some "boom" ∧
    FlattenStructColumn sampleModel
        (scriptedEngine (fun stmt => if stmt = "DROP TABLE a_tmp_0" then some "boom" else none)
          (fun _ => .ok (Rows.ofList [("b", "INT")]))) 1
        ⟨"a", "STRUCT(b INT)"⟩ []
      = some (([⟨"a_b", "INT"⟩], none),
          ["CREATE TABLE a_tmp_0 (C1 STRUCT(b INT))",
           "SELECT COLUMN_NAME, COLUMN_TYPE FROM (DESCRIBE SELECT C1.* FROM a_tmp_0)",
           "DROP TABLE a_tmp_0"]) :=
  ⟨by decide, by decide, by decide⟩

/-- The scan loop of `GetTableDesc` does not read `rows.Err()`: when the row
iteration of a description stops on an error after the row `b INT`, the table
description holds that row and no error, and `FlattenStructColumn` returns the
column `a_b` and no error. -/
theorem GetTableDesc_iteration_error_unread :
    GetTableDesc
        (scriptedEngine (fun _ => none)
          (fun _ => .ok ⟨[.ok ("b", "INT")], some "connection lost"⟩)) "t" []
      = (.ok ⟨[⟨"b", "INT"⟩]⟩, ["SELECT COLUMN_NAME, COLUMN_TYPE FROM (DESCRIBE t)"]) ∧
    FlattenStructColumn sampleModel
        (scriptedEngine (fun _ => none)
          (fun _ => .ok ⟨[.ok ("b", "INT")], some "connection lost"⟩)) 1
        ⟨"a", "STRUCT(b INT)"⟩ []
      = some (([⟨"a_b", "INT"⟩], none),
          ["CREATE TABLE a_tmp_0 (C1 STRUCT(b INT))",
           "SELECT COLUMN_NAME, COLUMN_TYPE FROM (DESCRIBE SELECT C1.* FROM a_tmp_0)",
           "DROP TABLE a_tmp_0"]) :=
  ⟨by decide, by decide⟩


/-! ### The flattened projection -/

theorem Join_cons_ne_nil (a : String) (xs : List String) (sep : String) (h : xs ≠ []) :
    Strings.Join (a :: xs) sep = a ++ sep ++ Strings.Join xs sep := by
  cases xs with
  | nil => exact absurd rfl h
  | cons b rest => rfl

theorem writeItems_eq (us : List ColumnDesc) :
    ∀ (fs : List ColumnDesc) (i : Nat) (sb : String), i + fs.length ≤ us.length →
      writeItems us (i + fs.length) fs i sb
        = sb ++ Strings.Join
            (List.zipWith (fun u f => u.ColName ++ " AS " ++ f.ColName) (us.drop i) fs) "," := by
  intro fs
  induction fs with
  | nil =>
    intro i sb _
    simp [writeItems, Strings.Join]
  | cons f fs ih =>
    intro i sb hlen
    have hi : i < us.length := by simp at hlen; omega
    have hdrop : us.drop i = us.getD i ⟨"", ""⟩ :: us.drop (i + 1) := by
      rw [List.getD_eq_getElem _ _ hi]
      exact List.drop_eq_getElem_cons hi
    rw [hdrop, List.zipWith_cons_cons, writeItems]
    cases fs with
    | nil =>
      simp [writeItems, Strings.Join]
    | cons g gs =>
      have h2 : i + (f :: g :: gs).length = (i + 1) + (g :: gs).length := by simp; omega
      have hlt2 : i < i + (f :: g :: gs).length - 1 := by simp
      simp only [hlt2, if_true]
      rw [h2, ih (i + 1) _ (by rw [← h2]; exact hlen)]
      have hi2 : i + 1 < us.length := by simp at hlen; omega
      have hne : List.zipWith (fun u f => u.ColName ++ " AS " ++ f.ColName)
          (us.drop (i + 1)) (g :: gs) ≠ [] := by
        rw [List.drop_eq_getElem_cons hi2, List.zipWith_cons_cons]
        exact List.cons_ne_nil _ _
      rw [Join_cons_ne_nil _ _ _ hne]
      simp only [String.append_assoc]

theorem flattenTableLoop_blocks {σ : Type} (m : Model) (e : Env σ) (fuel : Nat) :
    ∀ (ds acc : List ColumnDesc) (s : σ) (flat : List ColumnDesc) (s2 : σ),
      flattenTableLoop m e fuel ds acc s = some ((flat, none), s2) →
      ∃ blocks : List (List ColumnDesc), flat = acc ++ blocks.flatten ∧
        List.Forall₂ (fun d b =>
          (m.IsStruct d.ColType = false ∧ b = [d]) ∨
          (m.IsStruct d.ColType = true ∧
            ∃ s3 s4, FlattenStructColumn m e fuel d s3 = some ((b, none), s4))) ds blocks := by
  intro ds
  induction ds with
  | nil =>
    intro acc s flat s2 h
    simp only [flattenTableLoop, Option.some.injEq, Prod.mk.injEq] at h
    exact ⟨[], by simp [h.1.1], List.Forall₂.nil⟩
  | cons d ds ih =>
    intro acc s flat s2 h
    rw [flattenTableLoop] at h
    split at h
    · rename_i hS
      split at h
      · exact absurd h (by simp)
      · simp at h
      · rename_i cols s1 hrun
        obtain ⟨blocks, hflat, hall⟩ := ih _ _ _ _ h
        refine ⟨cols :: blocks, by simp [hflat], List.Forall₂.cons (Or.inr ⟨hS, s, s1, hrun⟩) hall⟩
    · rename_i hS
      obtain ⟨blocks, hflat, hall⟩ := ih _ _ _ _ h
      refine ⟨[d] :: blocks, by simp [hflat], List.Forall₂.cons (Or.inl ⟨by simpa using hS, rfl⟩) hall⟩

/-- C6: when the table's description, the flattening of its columns, the unnested
select list and the description of the unnested select have all succeeded, and
the unnested description has another number of columns than the flattened list,
`getFlattenedTableSelect` returns the empty string and the mismatch error. -/
theorem getFlattenedTableSelect_mismatch {σ : Type} (m : Model) (e : Env σ) (fuel : Nat)
    (tableName : String) (s : σ) (td : TableDesc) (flat : List ColumnDesc)
    (unnestedCols : String) (ud : TableDesc) (s1 s2 : σ)
    (hd : GetTableDesc e tableName s = (.ok td, s1))
    (hf : flattenTableLoop m e fuel td.ColumnDescs [] s1 = some ((flat, none), s2))
    (hu : m.GetUnnestedColumns td = (unnestedCols, none))
    (hq : (GetTableDesc e ("SELECT " ++ unnestedCols ++ " FROM " ++ tableName) s2).1 = .ok ud)
    (hne : ud.ColumnDescs.length ≠ flat.length) :
    getFlattenedTableSelect m e fuel tableName s
      = some (("", some (.mismatch ud.ColumnDescs flat)),
          (GetTableDesc e ("SELECT " ++ unnestedCols ++ " FROM " ++ tableName) s2).2) := by
  unfold getFlattenedTableSelect
  simp only [hd, hf, hu, hq, hne, ne_eq, not_false_eq_true, if_true]

/-- The engine drops the column `y` from the unnested description of `t`: one
column against two flattened columns. -/
theorem getFlattenedTableSelect_mismatch_witness :
    GetTableDesc dropColumnEngine "t" []
      = (.ok ⟨[⟨"x", "INT"⟩, ⟨"y", "INT"⟩]⟩,
          ["SELECT COLUMN_NAME, COLUMN_TYPE FROM (DESCRIBE t)"]) ∧
    flattenTableLoop sampleModel dropColumnEngine 0 [⟨"x", "INT"⟩, ⟨"y", "INT"⟩] []
        ["SELECT COLUMN_NAME, COLUMN_TYPE FROM (DESCRIBE t)"]
      = some (([⟨"x", "INT"⟩, ⟨"y", "INT"⟩], none),
          ["SELECT COLUMN_NAME, COLUMN_TYPE FROM (DESCRIBE t)"]) ∧
    sampleModel.GetUnnestedColumns ⟨[⟨"x", "INT"⟩, ⟨"y", "INT"⟩]⟩ = ("x, y", none) ∧
    (GetTableDesc dropColumnEngine ("SELECT " ++ "x, y" ++ " FROM " ++ "t")
        ["SELECT COLUMN_NAME, COLUMN_TYPE FROM (DESCRIBE t)"]).1 = .ok ⟨[⟨"x", "INT"⟩]⟩ ∧
    [(⟨"x", "INT"⟩ : ColumnDesc)].length ≠ [(⟨"x", "INT"⟩ : ColumnDesc), ⟨"y", "INT"⟩].length ∧
    getFlattenedTableSelect sampleModel dropColumnEngine 0 "t" []
      = some (("", some (.mismatch [⟨"x", "INT"⟩] [⟨"x", "INT"⟩, ⟨"y", "INT"⟩])),
          ["SELECT COLUMN_NAME, COLUMN_TYPE FROM (DESCRIBE t)",
           "SELECT COLUMN_NAME, COLUMN_TYPE FROM (DESCRIBE SELECT x, y FROM t)"]) :=
  ⟨by decide, by decide, by decide, by decide, by decide,
    getFlattenedTableSelect_mismatch sampleModel dropColumnEngine 0 "t" []
      ⟨[⟨"x", "INT"⟩, ⟨"y", "INT"⟩]⟩ [⟨"x", "INT"⟩, ⟨"y", "INT"⟩] "x, y" ⟨[⟨"x", "INT"⟩]⟩
      ["SELECT COLUMN_NAME, COLUMN_TYPE FROM (DESCRIBE t)"]
      ["SELECT COLUMN_NAME, COLUMN_TYPE FROM (DESCRIBE t)"]
      (by decide) (by decide) (by decide) (by decide) (by decide)⟩

/-- C7: when all four steps have succeeded and the two lists have the same length,
`getFlattenedTableSelect` returns, without error, `SELECT `, the items
`<u_i> AS <f_i>` joined by single commas, and ` FROM (SELECT <unnested column
list> FROM <table>)`; `u_i` is the i-th column of the unnested description and
`f_i` the i-th flattened column, the flattened columns being the table's columns
in reported order with every non-struct column kept as it is and every struct
column replaced in place by what `FlattenStructColumn` returned for it. -/
theorem getFlattenedTableSelect_sql {σ : Type} (m : Model) (e : Env σ) (fuel : Nat)
    (tableName : String) (s : σ) (td : TableDesc) (flat : List ColumnDesc)
    (unnestedCols : String) (ud : TableDesc) (s1 s2 : σ)
    (hd : GetTableDesc e tableName s = (.ok td, s1))
    (hf : flattenTableLoop m e fuel td.ColumnDescs [] s1 = some ((flat, none), s2))
    (hu : m.GetUnnestedColumns td = (unnestedCols, none))
    (hq : (GetTableDesc e ("SELECT " ++ unnestedCols ++ " FROM " ++ tableName) s2).1 = .ok ud)
    (heq : ud.ColumnDescs.length = flat.length) :
    getFlattenedTableSelect m e fuel tableName s
      = some (("SELECT "
            ++ Strings.Join (List.zipWith (fun u f => u.ColName ++ " AS " ++ f.ColName)
                ud.ColumnDescs flat) ","
            ++ " FROM (" ++ ("SELECT " ++ unnestedCols ++ " FROM " ++ tableName) ++ ")", none),
          (GetTableDesc e ("SELECT " ++ unnestedCols ++ " FROM " ++ tableName) s2).2) ∧
    ∃ blocks : List (List ColumnDesc), flat = blocks.flatten ∧
      List.Forall₂ (fun d b =>
        (m.IsStruct d.ColType = false ∧ b = [d]) ∨
        (m.IsStruct d.ColType = true ∧
          ∃ s3 s4, FlattenStructColumn m e fuel d s3 = some ((b, none), s4)))
        td.ColumnDescs blocks := by
  constructor
  · unfold getFlattenedTableSelect
    simp only [hd, hf, hu, hq, heq, ne_eq, not_true_eq_false, if_false]
    have hw := writeItems_eq ud.ColumnDescs flat 0 "SELECT " (by simp [heq])
    simp only [Nat.zero_add, List.drop_zero] at hw
    rw [hw]
    simp only [String.append_assoc]
  · obtain ⟨blocks, hflat, hall⟩ := flattenTableLoop_blocks m e fuel _ _ _ _ _ hf
    exact ⟨blocks, by simpa using hflat, hall⟩

/-- The table `t` with columns `x`, `a STRUCT(b INT)`, `y`: the struct column is
replaced in place by `a_b`, and the statement selects `x AS x,b AS a_b,y AS y`. -/
theorem getFlattenedTableSelect_sql_witness :
    GetTableDesc nestedTableEngine "t" []
      = (.ok ⟨[⟨"x", "INT"⟩, ⟨"a", "STRUCT(b INT)"⟩, ⟨"y", "INT"⟩]⟩,
          ["SELECT COLUMN_NAME, COLUMN_TYPE FROM (DESCRIBE t)"]) ∧
    flattenTableLoop sampleModel nestedTableEngine 1
        [⟨"x", "INT"⟩, ⟨"a", "STRUCT(b INT)"⟩, ⟨"y", "INT"⟩] []
        ["SELECT COLUMN_NAME, COLUMN_TYPE FROM (DESCRIBE t)"]
      = some (([⟨"x", "INT"⟩, ⟨"a_b", "INT"⟩, ⟨"y", "INT"⟩], none),
          ["SELECT COLUMN_NAME, COLUMN_TYPE FROM (DESCRIBE t)",
           "CREATE TABLE a_tmp_0 (C1 STRUCT(b INT))",
           "SELECT COLUMN_NAME, COLUMN_TYPE FROM (DESCRIBE SELECT C1.* FROM a_tmp_0)",
           "DROP TABLE a_tmp_0"]) ∧
    getFlattenedTableSelect sampleModel nestedTableEngine 1 "t" []
      = some (("SELECT x AS x,b AS a_b,y AS y FROM (SELECT x, UNNEST(a), y FROM t)", none),
          ["SELECT COLUMN_NAME, COLUMN_TYPE FROM (DESCRIBE t)",
           "CREATE TABLE a_tmp_0 (C1 STRUCT(b INT))",
           "SELECT COLUMN_NAME, COLUMN_TYPE FROM (DESCRIBE SELECT C1.* FROM a_tmp_0)",
           "DROP TABLE a_tmp_0",
           "SELECT COLUMN_NAME, COLUMN_TYPE FROM (DESCRIBE SELECT x, UNNEST(a), y FROM t)"]) :=
  ⟨by decide, by decide,
    (getFlattenedTableSelect_sql sampleModel nestedTableEngine 1 "t" []
      ⟨[⟨"x", "INT"⟩, ⟨"a", "STRUCT(b INT)"⟩, ⟨"y", "INT"⟩]⟩
      [⟨"x", "INT"⟩, ⟨"a_b", "INT"⟩, ⟨"y", "INT"⟩] "x, UNNEST(a), y"
      ⟨[⟨"x", "INT"⟩, ⟨"b", "INT"⟩, ⟨"y", "INT"⟩]⟩
      ["SELECT COLUMN_NAME, COLUMN_TYPE FROM (DESCRIBE t)"]
      ["SELECT COLUMN_NAME, COLUMN_TYPE FROM (DESCRIBE t)",
       "CREATE TABLE a_tmp_0 (C1 STRUCT(b INT))",
       "SELECT COLUMN_NAME, COLUMN_TYPE FROM (DESCRIBE SELECT C1.* FROM a_tmp_0)",
       "DROP TABLE a_tmp_0"]
      (by decide) (by decide) (by decide) (by decide) (by decide)).1.trans (by decide)⟩

end Fileconv

namespace Pqconv

/-- C9: `Json2Parquet` sends the engine exactly one statement, the text
`COPY (SELECT * FROM read_json('<source>')) TO '<dest>' <Params()>`, and returns
the engine's verdict on it; the statement, the result and the state after the
call are the same for every two lists of JSON read parameters, whatever
`jsonparam.New` makes of them. -/
theorem Json2Parquet_statement {σ P J W : Type} (New : List P → J) (Params : W → String)
    (e : Fileconv.Env σ) (srcJson dest : String) (pqWriteParams : W)
    (jsonParams : List P) (s : σ) :
    Json2Parquet New Params e srcJson dest pqWriteParams jsonParams s
      = e.ExecContext ("COPY (SELECT * FROM read_json('" ++ srcJson ++ "')) TO '" ++ dest
          ++ "' " ++ Params pqWriteParams) s ∧
    (∀ (execErr : String → Option String)
        (answer : String → Except String Fileconv.Rows) (log : List String),
      (Json2Parquet New Params (Fileconv.scriptedEngine execErr answer) srcJson dest
          pqWriteParams jsonParams log).2
        = log ++ ["COPY (SELECT * FROM read_json('" ++ srcJson ++ "')) TO '" ++ dest
            ++ "' " ++ Params pqWriteParams]) ∧
    (∀ (J2 : Type) (New2 : List P → J2) (jsonParams2 : List P),
      Json2Parquet New2 Params e srcJson dest pqWriteParams jsonParams2 s
        = Json2Parquet New Params e srcJson dest pqWriteParams jsonParams s) := by
  have key : ∀ (σ2 J3 : Type) (N : List P → J3) (e2 : Fileconv.Env σ2) (jp : List P) (s2 : σ2),
      Json2Parquet N Params e2 srcJson dest pqWriteParams jp s2
        = e2.ExecContext (copySQL srcJson dest (Params pqWriteParams)) s2 := by
    intro σ2 J3 N e2 jp s2
    unfold Json2Parquet
    simp only []
    split
    · rename_i err h
      rw [← h]
    · rename_i h
      rw [← h]
  refine ⟨key σ J New e jsonParams s, ?_, ?_⟩
  · intro execErr answer log
    rw [key]
    rfl
  · intro J2 New2 jsonParams2
    rw [key, key]

end Pqconv

namespace Cmd

/-! ### The `--columns` entries -/

theorem splitChars_length (sep : Char) :
    ∀ l : List Char, (Strings.splitChars sep l).length = l.count sep + 1 := by
  intro l
  induction l with
  | nil => simp [Strings.splitChars]
  | cons c cs ih =>
    rw [Strings.splitChars]
    by_cases h : c = sep
    · subst h
      simp [ih]
    · rw [if_neg h]
      cases hs : Strings.splitChars sep cs with
      | nil => rw [hs] at ih; simp at ih
      | cons p ps =>
        rw [hs] at ih
        simp only [List.length_cons] at ih ⊢
        rw [ih, List.count_cons_of_ne (Ne.symm h)]

theorem joinChars_cons_ne_nil (sep : Char) (a : List Char) (rest : List (List Char))
    (h : rest ≠ []) : joinChars sep (a :: rest) = a ++ sep :: joinChars sep rest := by
  cases rest with
  | nil => exact absurd rfl h
  | cons b r => rfl

theorem joinChars_cons_cons_head (sep c : Char) (a : List Char) (rest : List (List Char)) :
    joinChars sep ((c :: a) :: rest) = c :: joinChars sep (a :: rest) := by
  cases rest with
  | nil => rfl
  | cons b r => rfl

/-- The pieces of a split are all pieces but the last, which hold what stands
before the last separator, and a last piece without separator. -/
theorem splitChars_shape (sep : Char) :
    ∀ l : List Char, ∃ (init : List (List Char)) (last : List Char),
      Strings.splitChars sep l = init ++ [last] ∧ sep ∉ last ∧
      (init = [] → l = last) ∧ (init ≠ [] → l = joinChars sep init ++ sep :: last) := by
  intro l
  induction l with
  | nil => exact ⟨[], [], by simp [Strings.splitChars], by simp, by simp, by simp⟩
  | cons c cs ih =>
    obtain ⟨init, last, hs, hlast, h0, h1⟩ := ih
    rw [Strings.splitChars]
    by_cases h : c = sep
    · subst h
      rw [if_pos rfl, hs]
      refine ⟨[] :: init, last, by simp, hlast, by simp, fun _ => ?_⟩
      by_cases hi : init = []
      · subst hi
        simp [joinChars, h0 rfl]
      · rw [joinChars_cons_ne_nil _ _ _ hi, List.nil_append, List.cons_append, ← h1 hi]
    · rw [if_neg h, hs]
      cases init with
      | nil =>
        refine ⟨[], c :: last, by simp, ?_, by simp [h0 rfl], by simp⟩
        simp only [List.mem_cons, not_or]
        exact ⟨Ne.symm h, hlast⟩
      | cons i0 is =>
        refine ⟨(c :: i0) :: is, last, by simp, hlast, by simp, fun _ => ?_⟩
        rw [joinChars_cons_cons_head, List.cons_append, ← h1 (List.cons_ne_nil _ _)]

theorem last_colon_unique (l a b : List Char) (hl : l = a ++ ':' :: b) (hb : ':' ∉ b) :
    ((l.reverse.dropWhile fun c => c != ':').drop 1).reverse = a ∧
    (l.reverse.takeWhile fun c => c != ':').reverse = b := by
  have hrev : l.reverse = b.reverse ++ ':' :: a.reverse := by
    rw [hl]; simp
  have hall : ∀ c ∈ b.reverse, (c != ':') = true := by
    intro c hc
    have : c ≠ ':' := fun h => hb (by rw [← h]; exact List.mem_reverse.mp hc)
    simpa using this
  constructor
  · rw [hrev, List.dropWhile_append_of_pos hall]
    simp
  · rw [hrev, List.takeWhile_append_of_pos hall]
    simp

theorem Join_data (ps : List (List Char)) :
    (Strings.Join (ps.map String.mk) ":").data = joinChars ':' ps := by
  induction ps with
  | nil => rfl
  | cons a rest ih =>
    cases rest with
    | nil => rfl
    | cons b r =>
      simp only [List.map_cons, Strings.Join, String.data_append, joinChars] at ih ⊢
      rw [ih]
      simp

theorem entry_parts (c : String) (hc : ':' ∈ c.data) :
    2 ≤ (Strings.Split c ':').length ∧
    Strings.Join ((Strings.Split c ':').take ((Strings.Split c ':').length - 1)) ":"
      = beforeLastColon c ∧
    (Strings.Split c ':').getD ((Strings.Split c ':').length - 1) "" = afterLastColon c ∧
    ((Strings.Split c ':').length = 2 →
      (Strings.Split c ':').getD 0 "" = beforeLastColon c ∧
      (Strings.Split c ':').getD 1 "" = afterLastColon c) := by
  obtain ⟨init, last, hs, hlast, h0, h1⟩ := splitChars_shape ':' c.data
  have hi : init ≠ [] := by
    intro h
    exact hlast (by rw [← h0 h]; exact hc)
  obtain ⟨ha, hb⟩ := last_colon_unique c.data (joinChars ':' init) last (h1 hi) hlast
  have hkd : Strings.Split c ':' = init.map String.mk ++ [String.mk last] := by
    simp [Strings.Split, hs]
  have hlen : (Strings.Split c ':').length = init.length + 1 := by simp [hkd]
  have hpos : 0 < init.length := List.length_pos.mpr hi
  have htake : (Strings.Split c ':').take ((Strings.Split c ':').length - 1)
      = init.map String.mk := by
    rw [hlen, hkd]
    simp
  have hlast2 : (Strings.Split c ':').getD ((Strings.Split c ':').length - 1) ""
      = String.mk last := by
    rw [hlen, hkd]
    simp [List.getD_eq_getElem?_getD, List.getElem?_append_right]
  have hname : Strings.Join (init.map String.mk) ":" = beforeLastColon c := by
    apply String.ext
    rw [Join_data]
    exact ha.symm
  have htype : String.mk last = afterLastColon c := by
    apply String.ext
    exact hb.symm
  refine ⟨by omega, by rw [htake, hname], by rw [hlast2, htype], ?_⟩
  intro h2
  have h1len : init.length = 1 := by omega
  obtain ⟨i0, hi0⟩ := List.length_eq_one.mp h1len
  constructor
  · rw [← hname, hkd, hi0]
    rfl
  · rw [← htype, hkd, hi0]
    rfl

theorem parseColumns_cons_colon (all rest : List String) (c : String) (m : StrMap)
    (hc : ':' ∈ c.data) :
    parseColumns all (c :: rest) m
      = parseColumns all rest (m.set (beforeLastColon c) (afterLastColon c)) := by
  obtain ⟨h2, hname, htype, htwo⟩ := entry_parts c hc
  rw [parseColumns]
  rw [if_neg (by omega)]
  by_cases hl : (Strings.Split c ':').length = 2
  · rw [if_pos hl, (htwo hl).1, (htwo hl).2]
  · rw [if_neg hl, hname, htype]

theorem parseColumns_cons_nocolon (all rest : List String) (c : String) (m : StrMap)
    (hc : ':' ∉ c.data) :
    parseColumns all (c :: rest) m
      = .error ("incorrect columns format: " ++ Strings.Join all ",") := by
  have hlen : (Strings.Split c ':').length = 1 := by
    simp [Strings.Split, splitChars_length, List.count_eq_zero_of_not_mem hc]
  rw [parseColumns]
  rw [if_pos (by omega)]

theorem parseColumns_ok (all : List String) :
    ∀ (rest : List String) (m : StrMap), (∀ c ∈ rest, ':' ∈ c.data) →
      parseColumns all rest m
        = .ok (rest.foldl (fun acc c => acc.set (beforeLastColon c) (afterLastColon c)) m) := by
  intro rest
  induction rest with
  | nil => intro m _; rfl
  | cons c rest ih =>
    intro m h
    rw [parseColumns_cons_colon all rest c m (h c (List.mem_cons_self _ _)),
      ih _ (fun d hd => h d (List.mem_cons_of_mem _ hd))]
    rfl

theorem parseColumns_error (all : List String) :
    ∀ (rest : List String) (m : StrMap), (∃ c ∈ rest, ':' ∉ c.data) →
      parseColumns all rest m = .error ("incorrect columns format: " ++ Strings.Join all ",") := by
  intro rest
  induction rest with
  | nil => intro m h; obtain ⟨c, hc, _⟩ := h; simp at hc
  | cons c rest ih =>
    intro m h
    by_cases hc : ':' ∈ c.data
    · rw [parseColumns_cons_colon all rest c m hc]
      apply ih
      obtain ⟨d, hd, hno⟩ := h
      rcases List.mem_cons.mp hd with rfl | hd2
      · exact absurd hc hno
      · exact ⟨d, hd2, hno⟩
    · exact parseColumns_cons_nocolon all rest c m hc

theorem getJsonReadFlags_eq (flags : FlagSet) (cols : List String)
    (hR : OthersRetrievable flags) (hc : flags.GetStringSlice "columns" = .ok cols) :
    ∃ base : json2ParquetFlags,
      getJsonReadFlags flags =
        match parseColumns cols cols StrMap.empty with
        | .ok columns => .ok { base with columns := columns }
        | .error err => .error err := by
  obtain ⟨⟨v1, h1⟩, ⟨v2, h2⟩, ⟨v3, h3⟩, ⟨v4, h4⟩, ⟨v5, h5⟩, ⟨v6, h6⟩, ⟨v7, h7⟩, ⟨v8, h8⟩,
    ⟨v9, h9⟩, ⟨v10, h10⟩, ⟨v11, h11⟩, ⟨v12, h12⟩, ⟨v13, h13⟩, ⟨v14, h14⟩⟩ := hR
  refine ⟨⟨v1, v2, v3, v4, v5, v6, v7, v8, v9, v10, v11, v12, v13, v14, StrMap.empty⟩, ?_⟩
  simp only [getJsonReadFlags, h1, h2, h3, h4, h5, h6, h7, h8, h9, h10, h11, h12, h13, h14, hc,
    bind, Except.bind, pure, Except.pure]
  cases parseColumns cols cols StrMap.empty <;> rfl

/-- C4: when the other flags can be retrieved and every `--columns` entry contains a
colon, `getJsonReadFlags` succeeds and its columns map is built entry by entry,
each entry assigning, under the name that is everything before its last colon,
the type that is everything after its last colon (so a later entry overwrites an
earlier one of the same name). -/
theorem getJsonReadFlags_columns (flags : FlagSet) (cols : List String)
    (hR : OthersRetrievable flags) (hc : flags.GetStringSlice "columns" = .ok cols)
    (hcolon : ∀ c ∈ cols, ':' ∈ c.data) :
    ∃ f : json2ParquetFlags, getJsonReadFlags flags = .ok f ∧
      f.columns = cols.foldl (fun acc c => acc.set (beforeLastColon c) (afterLastColon c))
        StrMap.empty := by
  obtain ⟨base, hb⟩ := getJsonReadFlags_eq flags cols hR hc
  rw [parseColumns_ok cols cols StrMap.empty hcolon] at hb
  exact ⟨_, hb, rfl⟩

/-- The entries `k1:INTEGER` and `k2:VARCHAR` give the map with `k1` at `INTEGER`
and `k2` at `VARCHAR`. -/
theorem getJsonReadFlags_columns_witness :
    OthersRetrievable (sampleFlags ["k1:INTEGER", "k2:VARCHAR"]) ∧
    (sampleFlags ["k1:INTEGER", "k2:VARCHAR"]).GetStringSlice "columns"
      = .ok ["k1:INTEGER", "k2:VARCHAR"] ∧
    (∀ c ∈ ["k1:INTEGER", "k2:VARCHAR"], ':' ∈ c.data) ∧
    (["k1:INTEGER", "k2:VARCHAR"].foldl
        (fun acc c => acc.set (beforeLastColon c) (afterLastColon c)) StrMap.empty)
      = (StrMap.empty.set "k1" "INTEGER").set "k2" "VARCHAR" ∧
    ∃ f : json2ParquetFlags,
      getJsonReadFlags (sampleFlags ["k1:INTEGER", "k2:VARCHAR"]) = .ok f ∧
      f.columns = ["k1:INTEGER", "k2:VARCHAR"].foldl
        (fun acc c => acc.set (beforeLastColon c) (afterLastColon c)) StrMap.empty :=
  have hR : OthersRetrievable (sampleFlags ["k1:INTEGER", "k2:VARCHAR"]) :=
    ⟨⟨_, rfl⟩, ⟨_, rfl⟩, ⟨_, rfl⟩, ⟨_, rfl⟩, ⟨_, rfl⟩, ⟨_, rfl⟩, ⟨_, rfl⟩, ⟨_, rfl⟩, ⟨_, rfl⟩,
      ⟨_, rfl⟩, ⟨_, rfl⟩, ⟨_, rfl⟩, ⟨_, rfl⟩, ⟨_, rfl⟩⟩
  have h1 : beforeLastColon "k1:INTEGER" = "k1" := by decide
  have h2 : afterLastColon "k1:INTEGER" = "INTEGER" := by decide
  have h3 : beforeLastColon "k2:VARCHAR" = "k2" := by decide
  have h4 : afterLastColon "k2:VARCHAR" = "VARCHAR" := by decide
  ⟨hR, rfl, by decide, by simp only [List.foldl, h1, h2, h3, h4],
    getJsonReadFlags_columns (sampleFlags ["k1:INTEGER", "k2:VARCHAR"])
      ["k1:INTEGER", "k2:VARCHAR"] hR rfl (by decide)⟩

/-- C5: when the other flags can be retrieved, `getJsonReadFlags` fails with
`incorrect columns format: ` followed by all entries joined by commas if and only
if some `--columns` entry contains no colon; and in that case it returns no flags
object. -/
theorem getJsonReadFlags_format_error (flags : FlagSet) (cols : List String)
    (hR : OthersRetrievable flags) (hc : flags.GetStringSlice "columns" = .ok cols) :
    (getJsonReadFlags flags = .error ("incorrect columns format: " ++ Strings.Join cols ",")
      ↔ ∃ c ∈ cols, ':' ∉ c.data) ∧
    ((∃ c ∈ cols, ':' ∉ c.data) → ∀ f : json2ParquetFlags, getJsonReadFlags flags ≠ .ok f) := by
  obtain ⟨base, hb⟩ := getJsonReadFlags_eq flags cols hR hc
  have hfail : (∃ c ∈ cols, ':' ∉ c.data) →
      getJsonReadFlags flags = .error ("incorrect columns format: " ++ Strings.Join cols ",") := by
    intro h
    rw [hb, parseColumns_error cols cols StrMap.empty h]
  refine ⟨⟨fun h => ?_, hfail⟩, fun h f hf => ?_⟩
  · by_contra hno
    have hall : ∀ c ∈ cols, ':' ∈ c.data := by
      intro c hcm
      by_contra hn
      exact hno ⟨c, hcm, hn⟩
    rw [hb, parseColumns_ok cols cols StrMap.empty hall] at h
    exact absurd h (by simp)
  · rw [hfail h] at hf
    exact absurd hf (by simp)

/-- The entries `k1:INTEGER` and `badtoken`: the second has no colon, and the call
fails with `incorrect columns format: k1:INTEGER,badtoken`. -/
theorem getJsonReadFlags_format_error_witness :
    OthersRetrievable (sampleFlags ["k1:INTEGER", "badtoken"]) ∧
    (sampleFlags ["k1:INTEGER", "badtoken"]).GetStringSlice "columns"
      = .ok ["k1:INTEGER", "badtoken"] ∧
    "incorrect columns format: " ++ Strings.Join ["k1:INTEGER", "badtoken"] ","
      = "incorrect columns format: k1:INTEGER,badtoken" ∧
    getJsonReadFlags (sampleFlags ["k1:INTEGER", "badtoken"])
      = .error ("incorrect columns format: " ++ Strings.Join ["k1:INTEGER", "badtoken"] ",") :=
  have hR : OthersRetrievable (sampleFlags ["k1:INTEGER", "badtoken"]) :=
    ⟨⟨_, rfl⟩, ⟨_, rfl⟩, ⟨_, rfl⟩, ⟨_, rfl⟩, ⟨_, rfl⟩, ⟨_, rfl⟩, ⟨_, rfl⟩, ⟨_, rfl⟩, ⟨_, rfl⟩,
      ⟨_, rfl⟩, ⟨_, rfl⟩, ⟨_, rfl⟩, ⟨_, rfl⟩, ⟨_, rfl⟩⟩
  ⟨hR, rfl, by decide,
    (getJsonReadFlags_format_error (sampleFlags ["k1:INTEGER", "badtoken"])
      ["k1:INTEGER", "badtoken"] hR rfl).1.mpr ⟨"badtoken", by decide, by decide⟩⟩

end Cmd
